import Mathlib

/-!
# Verification of the tml-ctp de-identification engine

Shallow embedding, in Lean 4, of the core functions of the `tml-ctp`
repository, together with proofs of the behavioural properties stated in
its specification.  The embedded functions are:

* `anonymize_tag_recurse`, `replace_str_in_number` and
  `get_dangerous_tag_pairs` from `tml_ctp/cli/utils/clean_series_tags.py`;
* `delete_identifiable_dicom_file` from
  `tml_ctp/cli/utils/delete_identifiable_dicoms.py`;
* `get_sorted_image_files` and `update_dat_script_file` from
  `tml_ctp/cli/ctp_dat_batcher.py`.

Python strings are modelled as `List Char`; Python exceptions are
modelled with `Except`; the sources of randomness (`random.randint`,
`uuid.uuid4`, `pydicom.uid.generate_uid`, `random_with_N_digits`) are
modelled as explicit oracle inputs, constrained exactly as the library
functions constrain their output.
-/

namespace TmlCtp

/-! ## Python string primitives -/

/-- `needle.isPrefixOf hay` for `List Char` (decidable, via `BEq`). -/
def listPrefix (needle hay : List Char) : Bool :=
  List.isPrefixOf needle hay

/-- Python's `needle in hay` substring test on strings. -/
def containsSub (hay needle : List Char) : Bool :=
  match hay with
  | [] => needle.isEmpty
  | _ :: t => listPrefix needle hay || containsSub t needle

/-- Python's `str.replace` for a non-empty pattern: scan left to right,
replacing non-overlapping occurrences. -/
def pyReplaceAux (o r : List Char) : List Char → List Char
  | [] => []
  | c :: cs =>
    if o ≠ [] ∧ listPrefix o (c :: cs) then
      r ++ pyReplaceAux o r (cs.drop (o.length - 1))
    else
      c :: pyReplaceAux o r cs
  termination_by s => s.length
  decreasing_by
  · simp only [List.length_drop, List.length_cons]
    omega
  · simp only [List.length_cons]
    omega

/-- Python's `str.replace`: for the empty pattern, `r` is inserted before
every character and at the end (CPython semantics); otherwise scan left
to right. -/
def pyReplace (s o r : List Char) : List Char :=
  if o.isEmpty then r ++ (s.map fun c => c :: r).flatten
  else pyReplaceAux o r s

/-- Python's `str.split(sep)` for a one-character separator: split at
every occurrence, keeping empty components. -/
def pySplit (sep : Char) : List Char → List (List Char)
  | [] => [[]]
  | c :: cs =>
    if c = sep then [] :: pySplit sep cs
    else
      match pySplit sep cs with
      | [] => [[c]]
      | p :: ps => (c :: p) :: ps

/-- Python's `sep.join(parts)` for a one-character separator. -/
def pyJoin (sep : Char) : List (List Char) → List Char
  | [] => []
  | [p] => p
  | p :: ps => p ++ sep :: pyJoin sep ps

theorem pySplit_ne_nil (sep : Char) (s : List Char) : pySplit sep s ≠ [] := by
  induction s with
  | nil => simp [pySplit]
  | cons c cs ih =>
    simp only [pySplit]
    split
    · simp
    · cases h : pySplit sep cs <;> simp

/-- Splitting a separator-free list yields the single component. -/
theorem pySplit_of_not_mem {sep : Char} {s : List Char} (h : sep ∉ s) :
    pySplit sep s = [s] := by
  induction s with
  | nil => rfl
  | cons c cs ih =>
    have hc : ¬c = sep := fun hcs => h (hcs ▸ List.mem_cons_self c cs)
    have hcs : sep ∉ cs := fun hm => h (List.mem_cons.2 (Or.inr hm))
    simp only [pySplit, if_neg hc, ih hcs]

/-- Splitting past a leading separator-free component. -/
theorem pySplit_append_cons {sep : Char} {p : List Char} (h : sep ∉ p)
    (rest : List Char) :
    pySplit sep (p ++ sep :: rest) = p :: pySplit sep rest := by
  induction p with
  | nil => simp [pySplit]
  | cons c cs ih =>
    have hc : ¬c = sep := fun hcs => h (hcs ▸ List.mem_cons_self c cs)
    have hcs : sep ∉ cs := fun hm => h (List.mem_cons.2 (Or.inr hm))
    simp only [List.cons_append, pySplit, if_neg hc, List.append_eq, ih hcs]

/-- Splitting and rejoining with the same separator is the identity. -/
theorem pyJoin_pySplit (sep : Char) (s : List Char) :
    pyJoin sep (pySplit sep s) = s := by
  induction s with
  | nil => rfl
  | cons c cs ih =>
    simp only [pySplit]
    split
    · rename_i h
      rw [h]
      cases hcs : pySplit sep cs with
      | nil => exact absurd hcs (pySplit_ne_nil sep cs)
      | cons p ps =>
        rw [hcs] at ih
        simpa [pyJoin] using ih
    · cases hcs : pySplit sep cs with
      | nil => exact absurd hcs (pySplit_ne_nil sep cs)
      | cons p ps =>
        rw [hcs] at ih
        cases ps with
        | nil => simpa [pyJoin] using ih
        | cons q qs => simpa [pyJoin] using ih

/-- No component produced by `pySplit` contains the separator. -/
theorem not_mem_of_mem_pySplit (sep : Char) (s : List Char) :
    ∀ p ∈ pySplit sep s, sep ∉ p := by
  induction s with
  | nil =>
    intro p hp
    simp only [pySplit, List.mem_singleton] at hp
    simp [hp]
  | cons c cs ih =>
    intro p hp
    simp only [pySplit] at hp
    split at hp
    · rcases List.mem_cons.1 hp with h | h
      · simp [h]
      · exact ih p h
    · rename_i hc
      cases hcs : pySplit sep cs with
      | nil => exact absurd hcs (pySplit_ne_nil sep cs)
      | cons q qs =>
        rw [hcs] at hp
        rcases List.mem_cons.1 hp with h2 | h2
        · subst h2
          intro hmem
          rcases List.mem_cons.1 hmem with h3 | h3
          · exact hc h3.symm
          · exact ih q (hcs ▸ List.mem_cons_self q qs) h3
        · exact ih p (hcs ▸ List.mem_cons.2 (Or.inr h2))

/-- Splitting a join of separator-free components recovers the components. -/
theorem pySplit_pyJoin (sep : Char) (parts : List (List Char))
    (hne : parts ≠ []) (hfree : ∀ p ∈ parts, sep ∉ p) :
    pySplit sep (pyJoin sep parts) = parts := by
  induction parts with
  | nil => exact absurd rfl hne
  | cons p ps ih =>
    cases ps with
    | nil => exact pySplit_of_not_mem (hfree p (List.mem_cons_self p []))
    | cons q qs =>
      have hjoin : pyJoin sep (p :: q :: qs) = p ++ sep :: pyJoin sep (q :: qs) := rfl
      rw [hjoin, pySplit_append_cons (hfree p (List.mem_cons_self p (q :: qs))),
        ih (by simp) (fun x hx => hfree x (List.mem_cons.2 (Or.inr hx)))]

theorem containsSub_nil_needle (hay : List Char) : containsSub hay [] = true := by
  cases hay <;> simp [containsSub, listPrefix, List.isPrefixOf]

theorem containsSub_cons (c : Char) (t needle : List Char) :
    containsSub (c :: t) needle = (listPrefix needle (c :: t) || containsSub t needle) := rfl

/-- `str.replace` is the identity when the pattern does not occur. -/
theorem pyReplace_of_not_containsSub {s o : List Char} (r : List Char)
    (h : containsSub s o = false) : pyReplace s o r = s := by
  have hne : ¬o.isEmpty := by
    intro he
    rw [List.isEmpty_iff.1 he, containsSub_nil_needle] at h
    exact Bool.true_eq_false.mp h
  rw [pyReplace, if_neg hne]
  induction s with
  | nil => simp [pyReplaceAux]
  | cons c cs ih =>
    rw [containsSub_cons, Bool.or_eq_false_iff] at h
    rw [pyReplaceAux, if_neg (fun hp => by simp [h.1] at hp), ih h.2]

/-- Every character of `str.replace`'s output comes from the subject or the
replacement. -/
theorem mem_pyReplaceAux (o r : List Char) :
    ∀ s, ∀ c ∈ pyReplaceAux o r s, c ∈ s ∨ c ∈ r := by
  have key : ∀ n s, s.length ≤ n → ∀ c ∈ pyReplaceAux o r s, c ∈ s ∨ c ∈ r := by
    intro n
    induction n with
    | zero =>
      intro s hs c hc
      cases s with
      | nil => simp [pyReplaceAux] at hc
      | cons a as => simp at hs
    | succ n ih =>
      intro s hs c hc
      cases s with
      | nil => simp [pyReplaceAux] at hc
      | cons a as =>
        rw [pyReplaceAux] at hc
        split at hc
        · rcases List.mem_append.1 hc with h | h
          · exact Or.inr h
          · have hlen : (as.drop (o.length - 1)).length ≤ n := by
              simp only [List.length_drop]
              simp only [List.length_cons] at hs
              omega
            rcases ih _ hlen c h with h2 | h2
            · exact Or.inl (List.mem_cons.2 (Or.inr (List.drop_subset _ _ h2)))
            · exact Or.inr h2
        · rcases List.mem_cons.1 hc with h | h
          · exact Or.inl (List.mem_cons.2 (Or.inl h))
          · have hlen : as.length ≤ n := by
              simp only [List.length_cons] at hs
              omega
            rcases ih _ hlen c h with h2 | h2
            · exact Or.inl (List.mem_cons.2 (Or.inr h2))
            · exact Or.inr h2
  exact fun s => key s.length s le_rfl

theorem mem_pyReplace {s o r : List Char} {c : Char} (h : c ∈ pyReplace s o r) :
    c ∈ s ∨ c ∈ r := by
  rw [pyReplace] at h
  split at h
  · rcases List.mem_append.1 h with h2 | h2
    · exact Or.inr h2
    · rcases List.mem_flatten.1 h2 with ⟨l, hl, hcl⟩
      rcases List.mem_map.1 hl with ⟨a, ha, rfl⟩
      rcases List.mem_cons.1 hcl with h3 | h3
      · exact Or.inl (h3 ▸ ha)
      · exact Or.inr h3
  · exact mem_pyReplaceAux o r s c h

/-! ## Python decimal representation of `int`, and `int()` parsing -/

/-- Decimal digit list of a natural number, most significant first
(the textual form produced by Python's `str` on a non-negative `int`). -/
def natDigits (n : Nat) : List Char :=
  if n < 10 then [Nat.digitChar n]
  else natDigits (n / 10) ++ [Nat.digitChar (n % 10)]
  termination_by n
  decreasing_by
    rename_i h
    exact Nat.div_lt_self (by omega) (by omega)

/-- Python's `str` on an `int` value. -/
def intRepr (v : Int) : List Char :=
  if v < 0 then '-' :: natDigits v.natAbs else natDigits v.toNat

theorem digitChar_isDigit : ∀ k < 10, (Nat.digitChar k).isDigit = true := by decide

theorem digitChar_toNat : ∀ k < 10, (Nat.digitChar k).toNat = 48 + k := by decide

theorem natDigits_ne_nil (n : Nat) : natDigits n ≠ [] := by
  rw [natDigits]
  split
  · simp
  · simp

theorem natDigits_all_digit (n : Nat) : ∀ c ∈ natDigits n, c.isDigit = true := by
  have key : ∀ m n, n ≤ m → ∀ c ∈ natDigits n, c.isDigit = true := by
    intro m
    induction m with
    | zero =>
      intro n hn c hc
      interval_cases n
      rw [natDigits, if_pos (by omega : (0:Nat) < 10), List.mem_singleton] at hc
      exact hc ▸ digitChar_isDigit 0 (by omega)
    | succ m ih =>
      intro n hn c hc
      rw [natDigits] at hc
      split at hc
      · rename_i h
        rw [List.mem_singleton] at hc
        exact hc ▸ digitChar_isDigit n h
      · rename_i h
        rcases List.mem_append.1 hc with h2 | h2
        · exact ih (n / 10) (by omega) c h2
        · rw [List.mem_singleton] at h2
          exact h2 ▸ digitChar_isDigit (n % 10) (by omega)
  exact key n n le_rfl

/-- Value of a digit list, most significant first (Python's `int()` on a
pure digit string). -/
def digitsToNat (s : List Char) : Nat :=
  s.foldl (fun acc c => 10 * acc + (c.toNat - 48)) 0

theorem digitsToNat_append_last (s : List Char) (c : Char) :
    digitsToNat (s ++ [c]) = 10 * digitsToNat s + (c.toNat - 48) := by
  simp [digitsToNat, List.foldl_append]

theorem digitsToNat_natDigits (n : Nat) : digitsToNat (natDigits n) = n := by
  have key : ∀ m n, n ≤ m → digitsToNat (natDigits n) = n := by
    intro m
    induction m with
    | zero =>
      intro n hn
      interval_cases n
      simp [natDigits, digitsToNat, digitChar_toNat 0 (by omega)]
    | succ m ih =>
      intro n hn
      rw [natDigits]
      split
      · rename_i h
        simp [digitsToNat, digitChar_toNat n h]
      · rename_i h
        rw [digitsToNat_append_last, ih (n / 10) (by omega),
          digitChar_toNat (n % 10) (by omega)]
        omega
  exact key n n le_rfl

/-- Python's `int()` on a pure digit string; `none` models `ValueError`. -/
def pyParseNat (s : List Char) : Option Nat :=
  if s ≠ [] ∧ s.all Char.isDigit then some (digitsToNat s) else none

/-- Python's `int()` on a string: optional leading minus sign followed by a
non-empty digit string. -/
def pyParseInt (s : List Char) : Option Int :=
  match s with
  | [] => none
  | c :: rest =>
    if c = '-' then (pyParseNat rest).map (fun n => -(n : Int))
    else (pyParseNat (c :: rest)).map (fun n => (n : Int))

theorem pyParseNat_natDigits (n : Nat) : pyParseNat (natDigits n) = some n := by
  rw [pyParseNat, if_pos ⟨natDigits_ne_nil n, List.all_eq_true.2 (natDigits_all_digit n)⟩,
    digitsToNat_natDigits]

theorem pyParseInt_intRepr (v : Int) : pyParseInt (intRepr v) = some v := by
  rw [intRepr]
  split
  · rename_i h
    have habs : (v.natAbs : Int) = -v := by omega
    simp [pyParseInt, pyParseNat_natDigits, habs]
  · rename_i h
    cases hd : natDigits v.toNat with
    | nil => exact absurd hd (natDigits_ne_nil _)
    | cons c rest =>
      have hdigit : c.isDigit = true :=
        natDigits_all_digit v.toNat c (hd ▸ List.mem_cons_self c rest)
      have hne : ¬c = '-' := by
        intro hcm
        rw [hcm] at hdigit
        exact absurd hdigit (by decide)
      have htn : (v.toNat : Int) = v := by omega
      rw [pyParseInt, if_neg hne, ← hd, pyParseNat_natDigits]
      simp [htn]

/-- Python's `str.isnumeric` restricted to ASCII digit strings. -/
def pyIsNumeric (s : List Char) : Bool :=
  !s.isEmpty && s.all Char.isDigit

/-! ## `clean_series_tags.py`: the recursive substitution engine

A pydicom `Dataset` is a list of data elements; each data element has a
value representation (VR) string and a value.  Values cover the cases the
source dispatches on: single strings, `int`s, `float`s, tag-valued
elements (`pydicom.tag.BaseTag`), Python lists and tuples, and sequences
of nested datasets.  A Python `float` is represented by its `repr`
string (Python guarantees `float(str(x)) == x`, so in the identity case
the carrier is exact; a substitution that actually rewrites a float's
text falls outside the model and is flagged as `unmodeledFloat`).
Python exceptions are modelled with `Except PyErr`; in-place partial
mutation preceding an exception is not modelled (no claim depends on
it). -/

inductive PyErr where
  | typeError
  | valueError
  | attributeError
  | indexError
  | unmodeledFloat
  | fileNotFound
  | sameFileError
  deriving DecidableEq, Repr

mutual

inductive PyValue where
  | vstr (s : List Char)
  | vint (n : Int)
  | vfloat (rep : List Char)
  | vtag
  | vlist (xs : List PyValue)
  | vtuple (xs : List PyValue)
  | vseq (items : List PyDataset)

inductive PyElement where
  | mk (vr : List Char) (value : PyValue)

inductive PyDataset where
  | mk (elems : List PyElement)

end

def PyElement.vr : PyElement → List Char
  | .mk v _ => v

def PyElement.value : PyElement → PyValue
  | .mk _ v => v

def PyDataset.elems : PyDataset → List PyElement
  | .mk es => es

/-- `replace_str_in_number` (clean_series_tags.py:101-118) on an `int`
value: `type(elem_value)(str(elem_value).replace(initial_str, new_str))`.
A replaced text that no longer parses as an `int` raises `ValueError`. -/
def replace_str_in_number_int (n : Int) (initial_str new_str : List Char) :
    Except PyErr Int :=
  match pyParseInt (pyReplace (intRepr n) initial_str new_str) with
  | some m => .ok m
  | none => .error .valueError

/-- `replace_str_in_number` on a `float` value, on the `repr`-string
carrier.  When the replacement leaves the text unchanged the result is
the same float; a genuine textual rewrite of a float is outside the
model. -/
def replace_str_in_number_float (rep initial_str new_str : List Char) :
    Except PyErr (List Char) :=
  let s := pyReplace rep initial_str new_str
  if s = rep then .ok rep else .error .unmodeledFloat

/-- The VR string of sequence elements. -/
def sqVR : List Char := ['S', 'Q']

def isVstr : PyValue → Bool
  | .vstr _ => true
  | _ => false

/-- One member of a list-valued data element, as treated by the
`elif isinstance(elem.value, list) or isinstance(elem.value, tuple)`
branch of `anonymize_tag_recurse`: string members are substring-replaced
in place; all other members are untouched because the numeric sub-branch
tests `isinstance(elem.value, int)` — the type of the *containing
collection* — which is never true for a list or tuple. -/
def anonymizeListMember (initial_str new_str : List Char) : PyValue → PyValue
  | .vstr s => .vstr (pyReplace s initial_str new_str)
  | v => v

mutual

/-- `anonymize_tag_recurse` (clean_series_tags.py:160-205) on a dataset. -/
def anonymizeDataset (initial_str new_str : List Char) :
    PyDataset → Except PyErr PyDataset
  | .mk elems => do
    let es ← anonymizeElementList initial_str new_str elems
    pure (.mk es)

def anonymizeElementList (initial_str new_str : List Char) :
    List PyElement → Except PyErr (List PyElement)
  | [] => pure []
  | e :: es => do
    let e2 ← anonymizeElement initial_str new_str e
    let es2 ← anonymizeElementList initial_str new_str es
    pure (e2 :: es2)

/-- The per-element body of the `for elem in ds` loop. -/
def anonymizeElement (initial_str new_str : List Char) :
    PyElement → Except PyErr PyElement
  | .mk vr v =>
    if vr = sqVR then
      match v with
      | .vseq items => do
        let its ← anonymizeDatasetList initial_str new_str items
        pure (.mk vr (.vseq its))
      | _ => .error .typeError
    else
      match v with
      | .vstr s =>
        if '\\' ∈ s then
          pure (.mk vr (.vstr (pyJoin '\\'
            ((pySplit '\\' s).map (fun part => pyReplace part initial_str new_str)))))
        else
          pure (.mk vr (.vstr (pyReplace s initial_str new_str)))
      | .vtag => pure (.mk vr .vtag)
      | .vint n =>
        if pyIsNumeric initial_str then do
          let m ← replace_str_in_number_int n initial_str new_str
          pure (.mk vr (.vint m))
        else
          pure (.mk vr (.vint n))
      | .vfloat rep =>
        if pyIsNumeric initial_str then do
          let rep2 ← replace_str_in_number_float rep initial_str new_str
          pure (.mk vr (.vfloat rep2))
        else
          pure (.mk vr (.vfloat rep))
      | .vlist xs =>
        pure (.mk vr (.vlist (xs.map (anonymizeListMember initial_str new_str))))
      | .vtuple xs =>
        -- `elem.value[i] = value.replace(...)` on a tuple raises TypeError
        -- at the first string member; non-string members are untouched.
        if xs.any isVstr then .error .typeError
        else pure (.mk vr (.vtuple xs))
      | .vseq items => pure (.mk vr (.vseq items))

def anonymizeDatasetList (initial_str new_str : List Char) :
    List PyDataset → Except PyErr (List PyDataset)
  | [] => pure []
  | d :: ds => do
    let d2 ← anonymizeDataset initial_str new_str d
    let ds2 ← anonymizeDatasetList initial_str new_str ds
    pure (d2 :: ds2)

end

/-- A successful `anonymize_tag_recurse` run processes the data elements
of a dataset pointwise, in order. -/
theorem anonymizeElementList_ok_pointwise {o r : List Char} :
    ∀ {es es' : List PyElement}, anonymizeElementList o r es = .ok es' →
      ∀ (i : Nat) (e : PyElement), es[i]? = some e →
        ∃ e', es'[i]? = some e' ∧ anonymizeElement o r e = .ok e' := by
  intro es
  induction es with
  | nil =>
    intro es' h i e he
    simp at he
  | cons a as ih =>
    intro es' h i e he
    rw [anonymizeElementList] at h
    cases ha : anonymizeElement o r a with
    | error err =>
      rw [ha] at h
      simp only [bind, Except.bind] at h
      exact absurd h (by simp)
    | ok a2 =>
      rw [ha] at h
      cases has : anonymizeElementList o r as with
      | error err =>
        rw [has] at h
        simp only [bind, Except.bind] at h
        exact absurd h (by simp)
      | ok as2 =>
        rw [has] at h
        simp only [bind, Except.bind, pure, Except.pure, Except.ok.injEq] at h
        subst h
        cases i with
        | zero =>
          simp only [List.getElem?_cons_zero, Option.some.injEq] at he
          exact ⟨a2, by simp, he ▸ ha⟩
        | succ n =>
          simp only [List.getElem?_cons_succ] at he ⊢
          exact ih has n e he

theorem anonymizeDataset_ok_pointwise {o r : List Char} {R R' : PyDataset}
    (h : anonymizeDataset o r R = .ok R') :
    ∀ (i : Nat) (e : PyElement), R.elems[i]? = some e →
      ∃ e', R'.elems[i]? = some e' ∧ anonymizeElement o r e = .ok e' := by
  cases R with
  | mk es =>
    rw [anonymizeDataset] at h
    cases hes : anonymizeElementList o r es with
    | error err =>
      rw [hes] at h
      simp only [bind, Except.bind] at h
      exact absurd h (by simp)
    | ok es2 =>
      rw [hes] at h
      simp only [bind, Except.bind, pure, Except.pure, Except.ok.injEq] at h
      subst h
      exact anonymizeElementList_ok_pointwise hes

/-- The multi-valued string branch, at the level of one data element. -/
theorem anonymizeElement_multivalued {o r : List Char} {vr s : List Char}
    (hvr : vr ≠ sqVR) (hbs : '\\' ∈ s) :
    anonymizeElement o r (.mk vr (.vstr s)) =
      .ok (.mk vr (.vstr (pyJoin '\\'
        ((pySplit '\\' s).map (fun part => pyReplace part o r))))) := by
  rw [anonymizeElement, if_neg hvr]
  simp only [if_pos hbs]
  rfl

/-- C2: for every Record `R` containing a multi-valued string field whose
value has `k` components separated by the reserved backslash delimiter,
and every Sensitive Pair `(o, r)` where `r` does not contain the
delimiter, `anonymize_tag_recurse` leaves that field with exactly `k`
components, joined by the same delimiter, each component being the
independent substring-replacement of the original component. -/
theorem multivalued_field_cardinality_preserved (o r : List Char)
    (R R' : PyDataset) (h : anonymizeDataset o r R = .ok R') (i : Nat)
    (vr s : List Char) (he : R.elems[i]? = some (.mk vr (.vstr s)))
    (hvr : vr ≠ sqVR) (hbs : '\\' ∈ s) (hr : '\\' ∉ r) :
    ∃ s', R'.elems[i]? = some (.mk vr (.vstr s')) ∧
      pySplit '\\' s' = (pySplit '\\' s).map (fun part => pyReplace part o r) ∧
      (pySplit '\\' s').length = (pySplit '\\' s).length := by
  obtain ⟨e', he', hanon⟩ := anonymizeDataset_ok_pointwise h i _ he
  rw [anonymizeElement_multivalued hvr hbs] at hanon
  have he2 : e' = .mk vr (.vstr (pyJoin '\\'
      ((pySplit '\\' s).map (fun part => pyReplace part o r)))) := by
    cases hanon
    rfl
  subst he2
  refine ⟨_, he', ?_, ?_⟩
  · apply pySplit_pyJoin
    · intro hm
      rcases List.map_eq_nil_iff.mp hm with h2
      exact pySplit_ne_nil '\\' s h2
    · intro p hp
      rcases List.mem_map.1 hp with ⟨part, hpart, rfl⟩
      intro hmem
      rcases mem_pyReplace hmem with h2 | h2
      · exact not_mem_of_mem_pySplit '\\' s part hpart h2
      · exact hr h2
  · rw [pySplit_pyJoin]
    · simp
    · intro hm
      rcases List.map_eq_nil_iff.mp hm with h2
      exact pySplit_ne_nil '\\' s h2
    · intro p hp
      rcases List.mem_map.1 hp with ⟨part, hpart, rfl⟩
      intro hmem
      rcases mem_pyReplace hmem with h2 | h2
      · exact not_mem_of_mem_pySplit '\\' s part hpart h2
      · exact hr h2

/-- Witness for C2: the two-component field `"ab\cd"` under the pair
`("ab", "XY")` keeps exactly two components. -/
theorem multivalued_field_cardinality_preserved_witness :
    anonymizeDataset ['a', 'b'] ['X', 'Y']
        (.mk [.mk ['L', 'O'] (.vstr ['a', 'b', '\\', 'c', 'd'])]) =
      .ok (.mk [.mk ['L', 'O'] (.vstr ['X', 'Y', '\\', 'c', 'd'])]) ∧
    ∃ s', (PyDataset.mk [.mk ['L', 'O'] (.vstr ['X', 'Y', '\\', 'c', 'd'])]).elems[0]? =
        some (.mk ['L', 'O'] (.vstr s')) ∧
      pySplit '\\' s' = (pySplit '\\' ['a', 'b', '\\', 'c', 'd']).map
        (fun part => pyReplace part ['a', 'b'] ['X', 'Y']) ∧
      (pySplit '\\' s').length = (pySplit '\\' ['a', 'b', '\\', 'c', 'd']).length := by
  have h : anonymizeDataset ['a', 'b'] ['X', 'Y']
      (.mk [.mk ['L', 'O'] (.vstr ['a', 'b', '\\', 'c', 'd'])]) =
      .ok (.mk [.mk ['L', 'O'] (.vstr ['X', 'Y', '\\', 'c', 'd'])]) := by
    simp [anonymizeDataset, anonymizeElementList, anonymizeElement, sqVR,
      pySplit, pyJoin, pyReplace, pyReplaceAux, listPrefix, List.isPrefixOf,
      pure, Except.pure, bind, Except.bind]
  exact ⟨h, multivalued_field_cardinality_preserved ['a', 'b'] ['X', 'Y'] _ _ h 0
    ['L', 'O'] ['a', 'b', '\\', 'c', 'd'] rfl (by decide) (by decide) (by decide)⟩

def isNumericValue : PyValue → Bool
  | .vint _ => true
  | .vfloat _ => true
  | _ => false

/-- C10: for every data element whose value is a list or a tuple of
integers or floats, `anonymize_tag_recurse` leaves every member of that
value unchanged, for every pair `(initial_str, new_str)` — including when
`initial_str` is purely numeric and occurs textually in a member —
because the numeric branch inside the list/tuple case tests the type of
the containing collection rather than of the member. -/
theorem numeric_collection_members_untouched (o r vr : List Char)
    (xs : List PyValue) (hvr : vr ≠ sqVR)
    (hnum : ∀ v ∈ xs, isNumericValue v = true) :
    anonymizeElement o r (.mk vr (.vlist xs)) = .ok (.mk vr (.vlist xs)) ∧
    anonymizeElement o r (.mk vr (.vtuple xs)) = .ok (.mk vr (.vtuple xs)) := by
  constructor
  · have hmap : xs.map (anonymizeListMember o r) = xs := by
      rw [show xs.map (anonymizeListMember o r) = xs.map id from
        List.map_congr_left fun v hv => by
          have hn := hnum v hv
          cases v <;> simp_all [isNumericValue, anonymizeListMember],
        List.map_id]
    rw [anonymizeElement, if_neg hvr]
    simp [hmap, pure, Except.pure]
  · have hany : xs.any isVstr = false := by
      rw [List.any_eq_false]
      intro v hv
      have hn := hnum v hv
      cases v <;> simp_all [isNumericValue, isVstr]
    rw [anonymizeElement, if_neg hvr]
    simp [hany, pure, Except.pure]

/-- Witness for C10: the list/tuple value `[123, 4.5]` is untouched even
for the purely numeric pair `("123", "9")` whose original value occurs
textually in the first member. -/
theorem natDigits_small {n : Nat} (h : n < 10) :
    natDigits n = [Nat.digitChar n] := by
  rw [natDigits, if_pos h]

theorem numeric_collection_members_untouched_witness :
    (['D', 'S'] : List Char) ≠ sqVR ∧
    (∀ v ∈ [PyValue.vint 7, PyValue.vfloat ['4', '.', '5']],
      isNumericValue v = true) ∧
    pyIsNumeric ['7'] = true ∧
    containsSub (intRepr 7) ['7'] = true ∧
    anonymizeElement ['7'] ['9'] (.mk ['D', 'S']
        (.vlist [PyValue.vint 7, PyValue.vfloat ['4', '.', '5']])) =
      .ok (.mk ['D', 'S'] (.vlist [PyValue.vint 7, PyValue.vfloat ['4', '.', '5']])) ∧
    anonymizeElement ['7'] ['9'] (.mk ['D', 'S']
        (.vtuple [PyValue.vint 7, PyValue.vfloat ['4', '.', '5']])) =
      .ok (.mk ['D', 'S'] (.vtuple [PyValue.vint 7, PyValue.vfloat ['4', '.', '5']])) := by
  have h := numeric_collection_members_untouched ['7'] ['9'] ['D', 'S']
    [PyValue.vint 7, PyValue.vfloat ['4', '.', '5']] (by decide) (by decide)
  refine ⟨by decide, by decide, by decide, ?_, h.1, h.2⟩
  have hrep : intRepr 7 = ['7'] := by
    rw [intRepr, if_neg (by omega), show ((7 : Int).toNat) = 7 from rfl,
      natDigits_small (by omega)]
    decide
  rw [hrep]
  decide

/-! ## Textual occurrence of a sensitive value in a dataset -/

theorem containsSub_true_iff {hay needle : List Char} :
    containsSub hay needle = true ↔ needle <:+: hay := by
  induction hay with
  | nil =>
    simp only [containsSub, List.isEmpty_iff]
    constructor
    · intro h
      simp [h]
    · intro h
      simpa using List.infix_nil.mp h
  | cons c t ih =>
    rw [containsSub_cons, Bool.or_eq_true, List.infix_cons_iff]
    constructor
    · rintro (h | h)
      · exact Or.inl (List.isPrefixOf_iff_prefix.mp h)
      · exact Or.inr (ih.mp h)
    · rintro (h | h)
      · exact Or.inl (List.isPrefixOf_iff_prefix.mpr h)
      · exact Or.inr (ih.mpr h)

theorem containsSub_eq_false_mono {hay hay' needle : List Char}
    (hsub : hay' <:+: hay) (h : containsSub hay needle = false) :
    containsSub hay' needle = false := by
  by_contra hc
  rw [Bool.not_eq_false, containsSub_true_iff] at hc
  rw [Bool.eq_false_iff] at h
  exact h (containsSub_true_iff.mpr (hc.trans hsub))

/-- Every component produced by `pySplit` is an infix of the input, and
the first component is a prefix. -/
theorem pySplit_parts_within (sep : Char) :
    ∀ s : List Char, (∀ p ∈ pySplit sep s, p <:+: s) ∧
      (∀ q qs, pySplit sep s = q :: qs → q <+: s) := by
  intro s
  induction s with
  | nil =>
    constructor
    · intro p hp
      simp only [pySplit, List.mem_singleton] at hp
      simp [hp]
    · intro q qs h
      simp only [pySplit, List.cons.injEq] at h
      simp [h.1]
  | cons c cs ih =>
    by_cases hc : c = sep
    · constructor
      · intro p hp
        rw [show pySplit sep (c :: cs) = [] :: pySplit sep cs by
          simp [pySplit, hc]] at hp
        rcases List.mem_cons.1 hp with h | h
        · simp [h]
        · exact List.infix_cons (ih.1 p h)
      · intro q qs h
        rw [show pySplit sep (c :: cs) = [] :: pySplit sep cs by
          simp [pySplit, hc]] at h
        have hq := (List.cons.injEq _ _ _ _).mp h |>.1
        rw [← hq]
        exact List.nil_prefix
    · cases hcs : pySplit sep cs with
      | nil => exact absurd hcs (pySplit_ne_nil sep cs)
      | cons q qs =>
        have hsplit : pySplit sep (c :: cs) = (c :: q) :: qs := by
          simp [pySplit, hc, hcs]
        have hqpre : q <+: cs := ih.2 q qs hcs
        constructor
        · intro p hp
          rw [hsplit] at hp
          rcases List.mem_cons.1 hp with h | h
          · subst h
            refine List.IsPrefix.isInfix ?_
            obtain ⟨t, ht⟩ := hqpre
            exact ⟨t, by rw [← ht]; rfl⟩
          · exact List.infix_cons (ih.1 p (hcs ▸ List.mem_cons.2 (Or.inr h)))
        · intro q2 qs2 h
          rw [hsplit] at h
          have hq2 := (List.cons.injEq _ _ _ _).mp h |>.1
          subst hq2
          obtain ⟨t, ht⟩ := hqpre
          exact ⟨t, by rw [← ht]; rfl⟩

mutual

/-- Whether the string `o` occurs textually in some field value of a
dataset, at any depth (numeric values occur via their decimal text). -/
def occursInDataset (o : List Char) : PyDataset → Bool
  | .mk es => occursInElementList o es

def occursInElementList (o : List Char) : List PyElement → Bool
  | [] => false
  | e :: es => occursInElement o e || occursInElementList o es

def occursInElement (o : List Char) : PyElement → Bool
  | .mk _ v => occursInValue o v

def occursInValue (o : List Char) : PyValue → Bool
  | .vstr s => containsSub s o
  | .vint n => containsSub (intRepr n) o
  | .vfloat rep => containsSub rep o
  | .vtag => false
  | .vlist xs => occursInValueList o xs
  | .vtuple xs => occursInValueList o xs
  | .vseq items => occursInDatasetList o items

def occursInValueList (o : List Char) : List PyValue → Bool
  | [] => false
  | v :: vs => occursInValue o v || occursInValueList o vs

def occursInDatasetList (o : List Char) : List PyDataset → Bool
  | [] => false
  | d :: ds => occursInDataset o d || occursInDatasetList o ds

end

mutual

/-- The §3 data-model invariant of the specification: a sequence-typed
(VR `SQ`) field's value is an ordered list of child Records. -/
def datasetSQok : PyDataset → Bool
  | .mk es => elementListSQok es

def elementListSQok : List PyElement → Bool
  | [] => true
  | e :: es => elementSQok e && elementListSQok es

def elementSQok : PyElement → Bool
  | .mk vr v =>
    if vr = sqVR then
      match v with
      | .vseq items => datasetListSQok items
      | _ => false
    else true

def datasetListSQok : List PyDataset → Bool
  | [] => true
  | d :: ds => datasetSQok d && datasetListSQok ds

end

mutual

/-- No field of the dataset, at any depth, holds a tuple value with a
string member (such a field makes `anonymize_tag_recurse` raise
`TypeError` on the in-place tuple item assignment). -/
def datasetTupleSafe : PyDataset → Bool
  | .mk es => elementListTupleSafe es

def elementListTupleSafe : List PyElement → Bool
  | [] => true
  | e :: es => elementTupleSafe e && elementListTupleSafe es

def elementTupleSafe : PyElement → Bool
  | .mk _ v =>
    match v with
    | .vtuple xs => !xs.any isVstr
    | .vseq items => datasetListTupleSafe items
    | _ => true

def datasetListTupleSafe : List PyDataset → Bool
  | [] => true
  | d :: ds => datasetTupleSafe d && datasetListTupleSafe ds

end

theorem occursInValueList_eq_false {o : List Char} {xs : List PyValue}
    (h : occursInValueList o xs = false) :
    ∀ v ∈ xs, occursInValue o v = false := by
  induction xs with
  | nil => intro v hv; simp at hv
  | cons a as ih =>
    rw [occursInValueList, Bool.or_eq_false_iff] at h
    intro v hv
    rcases List.mem_cons.1 hv with h2 | h2
    · exact h2 ▸ h.1
    · exact ih h.2 v h2

/-- The multi-valued string branch is the identity when the original
value does not occur in the string. -/
theorem multivalued_branch_noop {o : List Char} (r : List Char)
    {s : List Char} (hocc : containsSub s o = false) :
    pyJoin '\\' ((pySplit '\\' s).map (fun part => pyReplace part o r)) = s := by
  have hmap : (pySplit '\\' s).map (fun part => pyReplace part o r) = pySplit '\\' s := by
    rw [show (pySplit '\\' s).map (fun part => pyReplace part o r) =
        (pySplit '\\' s).map id from
      List.map_congr_left fun part hpart =>
        pyReplace_of_not_containsSub r
          (containsSub_eq_false_mono ((pySplit_parts_within '\\' s).1 part hpart) hocc),
      List.map_id]
  rw [hmap, pyJoin_pySplit]

mutual

theorem anonymizeDataset_noop (o r : List Char) :
    ∀ R : PyDataset, occursInDataset o R = false → datasetSQok R = true →
      datasetTupleSafe R = true → anonymizeDataset o r R = .ok R
  | .mk es, hocc, hsq, htup => by
    rw [occursInDataset] at hocc
    rw [datasetSQok] at hsq
    rw [datasetTupleSafe] at htup
    rw [anonymizeDataset, anonymizeElementList_noop o r es hocc hsq htup]
    rfl

theorem anonymizeElementList_noop (o r : List Char) :
    ∀ es : List PyElement, occursInElementList o es = false →
      elementListSQok es = true → elementListTupleSafe es = true →
      anonymizeElementList o r es = .ok es
  | [], _, _, _ => by
    rw [anonymizeElementList]
    rfl
  | e :: es, hocc, hsq, htup => by
    rw [occursInElementList, Bool.or_eq_false_iff] at hocc
    rw [elementListSQok, Bool.and_eq_true] at hsq
    rw [elementListTupleSafe, Bool.and_eq_true] at htup
    rw [anonymizeElementList, anonymizeElement_noop o r e hocc.1 hsq.1 htup.1,
      anonymizeElementList_noop o r es hocc.2 hsq.2 htup.2]
    rfl

theorem anonymizeElement_noop (o r : List Char) :
    ∀ e : PyElement, occursInElement o e = false → elementSQok e = true →
      elementTupleSafe e = true → anonymizeElement o r e = .ok e
  | .mk vr v, hocc, hsq, htup => by
    cases v with
    | vseq items =>
      simp only [occursInElement, occursInValue] at hocc
      simp only [elementTupleSafe] at htup
      by_cases hvr : vr = sqVR
      · simp only [elementSQok, if_pos hvr] at hsq
        rw [anonymizeElement, if_pos hvr,
          anonymizeDatasetList_noop o r items hocc hsq htup]
        rfl
      · rw [anonymizeElement, if_neg hvr]
        rfl
    | vstr s =>
      simp only [occursInElement, occursInValue] at hocc
      have hvr : ¬vr = sqVR := by
        intro hvr
        simp [elementSQok, hvr] at hsq
      rw [anonymizeElement, if_neg hvr]
      by_cases hbs : '\\' ∈ s
      · simp only [if_pos hbs, multivalued_branch_noop r hocc]
        rfl
      · simp only [if_neg hbs, pyReplace_of_not_containsSub r hocc]
        rfl
    | vint n =>
      simp only [occursInElement, occursInValue] at hocc
      have hvr : ¬vr = sqVR := by
        intro hvr
        simp [elementSQok, hvr] at hsq
      rw [anonymizeElement, if_neg hvr]
      by_cases hnum : pyIsNumeric o = true
      · simp only [if_pos hnum, replace_str_in_number_int,
          pyReplace_of_not_containsSub r hocc, pyParseInt_intRepr]
        rfl
      · simp only [Bool.not_eq_true] at hnum
        simp only [hnum, Bool.false_eq_true, if_false]
        rfl
    | vfloat rep =>
      simp only [occursInElement, occursInValue] at hocc
      have hvr : ¬vr = sqVR := by
        intro hvr
        simp [elementSQok, hvr] at hsq
      rw [anonymizeElement, if_neg hvr]
      by_cases hnum : pyIsNumeric o = true
      · simp only [if_pos hnum, replace_str_in_number_float,
          pyReplace_of_not_containsSub r hocc, if_pos rfl]
        rfl
      · simp only [Bool.not_eq_true] at hnum
        simp only [hnum, Bool.false_eq_true, if_false]
        rfl
    | vtag =>
      have hvr : ¬vr = sqVR := by
        intro hvr
        simp [elementSQok, hvr] at hsq
      rw [anonymizeElement, if_neg hvr]
      rfl
    | vlist xs =>
      simp only [occursInElement, occursInValue] at hocc
      have hvr : ¬vr = sqVR := by
        intro hvr
        simp [elementSQok, hvr] at hsq
      rw [anonymizeElement, if_neg hvr]
      have hmap : xs.map (anonymizeListMember o r) = xs := by
        rw [show xs.map (anonymizeListMember o r) = xs.map id from
          List.map_congr_left fun v hv => ?_, List.map_id]
        have hvocc := occursInValueList_eq_false hocc v hv
        cases v with
        | vstr s =>
          rw [occursInValue] at hvocc
          simp [anonymizeListMember, pyReplace_of_not_containsSub r hvocc]
        | vint n => rfl
        | vfloat rep => rfl
        | vtag => rfl
        | vlist ys => rfl
        | vtuple ys => rfl
        | vseq its => rfl
      rw [hmap]
      rfl
    | vtuple xs =>
      simp only [elementTupleSafe, Bool.not_eq_eq_eq_not, Bool.not_true] at htup
      have hvr : ¬vr = sqVR := by
        intro hvr
        simp [elementSQok, hvr] at hsq
      rw [anonymizeElement, if_neg hvr]
      simp only [htup, Bool.false_eq_true, if_false]
      rfl

theorem anonymizeDatasetList_noop (o r : List Char) :
    ∀ ds : List PyDataset, occursInDatasetList o ds = false →
      datasetListSQok ds = true → datasetListTupleSafe ds = true →
      anonymizeDatasetList o r ds = .ok ds
  | [], _, _, _ => by
    rw [anonymizeDatasetList]
    rfl
  | d :: ds, hocc, hsq, htup => by
    rw [occursInDatasetList, Bool.or_eq_false_iff] at hocc
    rw [datasetListSQok, Bool.and_eq_true] at hsq
    rw [datasetListTupleSafe, Bool.and_eq_true] at htup
    rw [anonymizeDatasetList, anonymizeDataset_noop o r d hocc.1 hsq.1 htup.1,
      anonymizeDatasetList_noop o r ds hocc.2 hsq.2 htup.2]
    rfl

end

/-- C1 counterexample: on a Record whose only field value is the tuple
`("a",)` and the Sensitive Pair `("X", "Y")` — whose original value `"X"`
occurs nowhere in the Record — `anonymize_tag_recurse` does not return
the Record unchanged: the in-place item assignment
`elem.value[i] = value.replace(...)` on a tuple raises `TypeError`. -/
theorem anonymize_noop_counterexample :
    occursInDataset ['X'] (.mk [.mk ['S', 'H'] (.vtuple [.vstr ['a']])]) = false ∧
    anonymizeDataset ['X'] ['Y'] (.mk [.mk ['S', 'H'] (.vtuple [.vstr ['a']])]) =
      .error .typeError := by
  constructor
  · simp [occursInDataset, occursInElementList, occursInElement, occursInValue,
      occursInValueList, containsSub, listPrefix, List.isPrefixOf]
  · simp [anonymizeDataset, anonymizeElementList, anonymizeElement, sqVR,
      isVstr, bind, Except.bind]

/-- C1 (amended): for every Record `R` (whose sequence-typed fields hold
child Records, per the data model of §3, and none of whose tuple-valued
fields has a string member) and every Sensitive Pair `(o, r)` such that
`o` does not occur textually in any field value of `R` at any depth,
`anonymize_tag_recurse(R, o, r)` returns `R` unchanged and does not
raise. -/
theorem anonymize_noop_on_nonmatching (o r : List Char) (R : PyDataset)
    (hocc : occursInDataset o R = false) (hsq : datasetSQok R = true)
    (htup : datasetTupleSafe R = true) :
    anonymizeDataset o r R = .ok R :=
  anonymizeDataset_noop o r R hocc hsq htup

/-- Witness for the amended C1, on a Record with a string field, an
integer field and a nested sequence, for the non-occurring pair
`("z", "w")`. -/
theorem anonymize_noop_on_nonmatching_witness :
    occursInDataset ['z'] (.mk [.mk ['P', 'N'] (.vstr ['b', 'o', 'b']),
        .mk ['I', 'S'] (.vint 5),
        .mk sqVR (.vseq [.mk [.mk ['L', 'O'] (.vstr ['x', '\\', 'y'])]])]) = false ∧
    datasetSQok (.mk [.mk ['P', 'N'] (.vstr ['b', 'o', 'b']),
        .mk ['I', 'S'] (.vint 5),
        .mk sqVR (.vseq [.mk [.mk ['L', 'O'] (.vstr ['x', '\\', 'y'])]])]) = true ∧
    datasetTupleSafe (.mk [.mk ['P', 'N'] (.vstr ['b', 'o', 'b']),
        .mk ['I', 'S'] (.vint 5),
        .mk sqVR (.vseq [.mk [.mk ['L', 'O'] (.vstr ['x', '\\', 'y'])]])]) = true ∧
    anonymizeDataset ['z'] ['w'] (.mk [.mk ['P', 'N'] (.vstr ['b', 'o', 'b']),
        .mk ['I', 'S'] (.vint 5),
        .mk sqVR (.vseq [.mk [.mk ['L', 'O'] (.vstr ['x', '\\', 'y'])]])]) =
      .ok (.mk [.mk ['P', 'N'] (.vstr ['b', 'o', 'b']),
        .mk ['I', 'S'] (.vint 5),
        .mk sqVR (.vseq [.mk [.mk ['L', 'O'] (.vstr ['x', '\\', 'y'])]])]) := by
  have h5 : intRepr 5 = ['5'] := by
    rw [intRepr, if_neg (by omega), show ((5 : Int).toNat) = 5 from rfl,
      natDigits_small (by omega)]
    decide
  have hocc : occursInDataset ['z'] (.mk [.mk ['P', 'N'] (.vstr ['b', 'o', 'b']),
      .mk ['I', 'S'] (.vint 5),
      .mk sqVR (.vseq [.mk [.mk ['L', 'O'] (.vstr ['x', '\\', 'y'])]])]) = false := by
    simp [occursInDataset, occursInElementList, occursInElement, occursInValue,
      occursInValueList, occursInDatasetList, h5, containsSub, listPrefix,
      List.isPrefixOf]
  have hsq : datasetSQok (.mk [.mk ['P', 'N'] (.vstr ['b', 'o', 'b']),
      .mk ['I', 'S'] (.vint 5),
      .mk sqVR (.vseq [.mk [.mk ['L', 'O'] (.vstr ['x', '\\', 'y'])]])]) = true := by
    simp [datasetSQok, elementListSQok, elementSQok, datasetListSQok, sqVR]
  have htup : datasetTupleSafe (.mk [.mk ['P', 'N'] (.vstr ['b', 'o', 'b']),
      .mk ['I', 'S'] (.vint 5),
      .mk sqVR (.vseq [.mk [.mk ['L', 'O'] (.vstr ['x', '\\', 'y'])]])]) = true := by
    simp [datasetTupleSafe, elementListTupleSafe, elementTupleSafe,
      datasetListTupleSafe]
  exact ⟨hocc, hsq, htup, anonymize_noop_on_nonmatching ['z'] ['w'] _ hocc hsq htup⟩

/-! ## `delete_identifiable_dicoms.py`: the rule classifier

`delete_identifiable_dicom_file` reads the DICOM header attributes it
inspects; the model carries exactly those five attributes, each optional
(absent means the keyword is not in `dataset.dir("")`).  `Modality`,
`ProtocolName`, `SeriesDescription` and `SequenceName` are single
strings, on which Python's `in` is a substring test; `ImageType` is a
multi-valued attribute, a list of code strings, on which Python's `in`
is exact membership.  `dataset.data_element(name)` returns `None` for an
absent keyword, so `.value` on it raises `AttributeError`.

The evaluator is instrumented: besides the boolean decision it reports
which rule (numbered 1-7 as in §4.3 of the specification) set the delete
flag first, and which rule conditions were evaluated at all. -/

structure DicomMeta where
  modality : Option (List Char)
  imageType : Option (List (List Char))
  protocolName : Option (List Char)
  seriesDescription : Option (List Char)
  sequenceName : Option (List Char)
  deriving DecidableEq, Repr

/-- Case-insensitive substring test: models
`re.compile("(?i).*(X).*").search(v) is not None` for a literal `X`. -/
def ciContains (hay needle : List Char) : Bool :=
  containsSub (hay.map Char.toLower) (needle.map Char.toLower)

def IMAGETYPES_TO_REMOVE : List (List Char) :=
  ["SCREEN SAVE".toList, "DISPLAY".toList, "LOCALIZER".toList, "OTHER".toList]

def T1W_TO_REMOVE : List (List Char) :=
  ["tfl3d".toList, "fl2d".toList]

structure ClassifierResult where
  delete : Bool
  fired : Option Nat
  evaluated : List Nat
  deriving DecidableEq, Repr

/-- Rule 1's condition: `"SR" in dataset.data_element("Modality").value`
(substring), guarded by `"Modality" in attributes`. -/
def matchesRule1 (ds : DicomMeta) : Bool :=
  match ds.modality with
  | some m => containsSub m "SR".toList
  | none => false

/-- Rule 2's condition: some deny-listed image type is a member of the
multi-valued `ImageType`, guarded by `"ImageType" in attributes`. -/
def matchesRule2 (ds : DicomMeta) : Bool :=
  match ds.imageType with
  | some it => IMAGETYPES_TO_REMOVE.any fun t => decide (t ∈ it)
  | none => false

/-- Rule 4's condition: `ProtocolName` matches the case-insensitive
`Scout|localizer` pattern, guarded by `"ProtocolName" in attributes`. -/
def matchesRule4 (ds : DicomMeta) : Bool :=
  match ds.protocolName with
  | some pn => ciContains pn "scout".toList || ciContains pn "localizer".toList
  | none => false

/-- A record is clear of the unguarded `Modality` access inside the
`ImageType` block: either `Modality` is present, or `ImageType` does not
contain `SECONDARY` (so the `and` short-circuits before the access). -/
def secondaryAccessSafe (ds : DicomMeta) : Bool :=
  match ds.imageType, ds.modality with
  | some it, none => !decide ("SECONDARY".toList ∈ it)
  | _, _ => true

/-- `delete_identifiable_dicom_file` (delete_identifiable_dicoms.py:32-145),
instrumented with the fired rule and the list of evaluated rule
conditions.  Note on rules 6 and 7: the source tests
`"ORIGINAL" in dataset.data_element("ImageType")` — the data-element
object rather than its value; the model reads the membership off the
value, which is the only sensible denotation of that test. -/
def classifyWithTrace (ds : DicomMeta) (delete_T1w delete_T2w : Bool) :
    Except PyErr ClassifierResult := do
  -- Rule 1: structured-report modality.
  let st1 : Bool × Option Nat × List Nat :=
    match ds.modality with
    | some m =>
      if containsSub m "SR".toList then (true, some 1, [1]) else (false, none, [1])
    | none => (false, none, [])
  -- Rules 2 and 3 share the `not delete_this_file and "ImageType" in
  -- attributes` guard; rule 3's condition is evaluated even when rule 2
  -- has just set the flag.
  let st3 : Bool × Option Nat × List Nat ←
    if !st1.1 then
      match ds.imageType with
      | some it => do
        let m2 := IMAGETYPES_TO_REMOVE.any fun t => decide (t ∈ it)
        let d2 := st1.1 || m2
        let f2 := if st1.2.1.isSome then st1.2.1 else if m2 then some 2 else none
        if decide ("SECONDARY".toList ∈ it) then
          match ds.modality with
          | none => throw .attributeError
          | some m => do
            let m3 := containsSub m "CT".toList
            pure (d2 || m3, (if f2.isSome then f2 else if m3 then some 3 else none),
              st1.2.2 ++ [2, 3])
        else
          pure (d2, f2, st1.2.2 ++ [2, 3])
      | none => pure st1
    else
      pure st1
  -- Rule 4: protocol name scout/localizer.
  let st4 : Bool × Option Nat × List Nat :=
    if !st3.1 then
      match ds.protocolName with
      | some pn =>
        let m4 := ciContains pn "scout".toList || ciContains pn "localizer".toList
        (m4, (if m4 then some 4 else none), st3.2.2 ++ [4])
      | none => st3
    else st3
  -- Rule 5: series description deny patterns (five successive `if`s in
  -- the source, each only setting the flag).
  let st5 : Bool × Option Nat × List Nat :=
    if !st4.1 then
      match ds.seriesDescription with
      | some sd =>
        let m5 := ciContains sd "morpho".toList || ciContains sd "DEV".toList ||
          ciContains sd "report".toList || ciContains sd "AAhead".toList ||
          ciContains sd "rapid".toList || ciContains sd "KEY_IMAGES".toList
        (m5, (if m5 then some 5 else none), st4.2.2 ++ [5])
      | none => st4
    else st4
  -- Rule 6 (opt-in): T1w face-reconstructible sequences.
  let st6 : Bool × Option Nat × List Nat :=
    if !st5.1 && delete_T1w then
      match ds.sequenceName, ds.imageType with
      | some sn, some it =>
        let m6 := (T1W_TO_REMOVE.any fun t => containsSub sn t) &&
          decide ("ORIGINAL".toList ∈ it)
        (m6, (if m6 then some 6 else none), st5.2.2 ++ [6])
      | _, _ => st5
    else st5
  -- Rule 7 (opt-in): inversion-recovery T2w sequences.
  let st7 : Bool × Option Nat × List Nat :=
    if !st6.1 && delete_T2w then
      match ds.sequenceName, ds.imageType with
      | some sn, some it =>
        let m7 := containsSub sn "ir".toList && decide ("ORIGINAL".toList ∈ it)
        (m7, (if m7 then some 7 else none), st6.2.2 ++ [7])
      | _, _ => st6
    else st6
  pure ⟨st7.1, st7.2.1, st7.2.2⟩

/-- The boolean returned by `delete_identifiable_dicom_file` (the file
is deleted exactly when it is true). -/
def delete_identifiable_dicom_file (ds : DicomMeta)
    (delete_T1w delete_T2w : Bool) : Except PyErr Bool :=
  (classifyWithTrace ds delete_T1w delete_T2w).map (·.delete)

/-- C3: evaluating the classifier on a record that has an `ImageType`
attribute containing `SECONDARY` but no `Modality` attribute raises
`AttributeError`: the `"SECONDARY" in ImageType and "CT" in Modality`
rule reads `dataset.data_element("Modality").value` without the
`"Modality" in attributes` guard every other rule uses, and
`data_element` returns `None` for an absent keyword. -/
theorem classifier_raises_on_missing_modality :
    delete_identifiable_dicom_file
      ⟨none, some ["SECONDARY".toList], none, none, none⟩ false false =
      .error .attributeError := by
  rfl

/-- C5 counterexample: a record matching rule 2 (`ImageType` containing
`LOCALIZER`) and rule 4 (`ProtocolName` "scout") but also rule 1
(`Modality` "SR") is deleted with rule 1, not rule 2, reported as the
fired rule. -/
theorem classifier_priority_counterexample :
    matchesRule2 ⟨some "SR".toList, some ["LOCALIZER".toList],
      some "scout".toList, none, none⟩ = true ∧
    matchesRule4 ⟨some "SR".toList, some ["LOCALIZER".toList],
      some "scout".toList, none, none⟩ = true ∧
    classifyWithTrace ⟨some "SR".toList, some ["LOCALIZER".toList],
      some "scout".toList, none, none⟩ false false =
      .ok ⟨true, some 1, [1]⟩ := by
  refine ⟨by decide, by decide, by rfl⟩

/-- C5 (amended): for every record satisfying rule 2 and rule 4, not
satisfying rule 1, and not triggering the unguarded `Modality` access
(`Modality` present, or `SECONDARY` absent from `ImageType`), the
decision is delete=True with rule 2 reported as the fired rule, and the
conditions of rules 4, 5, 6 and 7 are not evaluated — for either setting
of the opt-in flags.  (Rule 3's condition, which shares rule 2's guard
in the source, is still evaluated after rule 2 matches.) -/
theorem classifier_rule2_priority (ds : DicomMeta) (t1 t2 : Bool)
    (h2 : matchesRule2 ds = true) (h4 : matchesRule4 ds = true)
    (h1 : matchesRule1 ds = false) (hsafe : secondaryAccessSafe ds = true) :
    ∃ ev, classifyWithTrace ds t1 t2 = .ok ⟨true, some 2, ev⟩ ∧
      4 ∉ ev ∧ 5 ∉ ev ∧ 6 ∉ ev ∧ 7 ∉ ev := by
  obtain ⟨mod, itO, pnO, sdO, snO⟩ := ds
  cases itO with
  | none => simp [matchesRule2] at h2
  | some it =>
    have hm2 : (IMAGETYPES_TO_REMOVE.any fun t => decide (t ∈ it)) = true := by
      simpa [matchesRule2] using h2
    cases mod with
    | none =>
      have hsec : ¬['S', 'E', 'C', 'O', 'N', 'D', 'A', 'R', 'Y'] ∈ it := by
        simpa [secondaryAccessSafe] using hsafe
      refine ⟨[2, 3], ?_, by decide, by decide, by decide, by decide⟩
      simp [classifyWithTrace, hm2, hsec, bind, Except.bind, pure, Except.pure]
    | some m =>
      have hm1 : containsSub m ['S', 'R'] = false := by
        simpa [matchesRule1] using h1
      refine ⟨[1, 2, 3], ?_, by decide, by decide, by decide, by decide⟩
      by_cases hsec : ['S', 'E', 'C', 'O', 'N', 'D', 'A', 'R', 'Y'] ∈ it
      · simp [classifyWithTrace, hm1, hm2, hsec, bind, Except.bind, pure, Except.pure]
      · simp [classifyWithTrace, hm1, hm2, hsec, bind, Except.bind, pure, Except.pure]

/-- Witness for the amended C5: `Modality` "MR", `ImageType` containing
`LOCALIZER`, `ProtocolName` "scout". -/
theorem classifier_rule2_priority_witness :
    matchesRule2 ⟨some "MR".toList, some ["LOCALIZER".toList],
      some "scout".toList, none, none⟩ = true ∧
    matchesRule4 ⟨some "MR".toList, some ["LOCALIZER".toList],
      some "scout".toList, none, none⟩ = true ∧
    matchesRule1 ⟨some "MR".toList, some ["LOCALIZER".toList],
      some "scout".toList, none, none⟩ = false ∧
    secondaryAccessSafe ⟨some "MR".toList, some ["LOCALIZER".toList],
      some "scout".toList, none, none⟩ = true ∧
    ∃ ev, classifyWithTrace ⟨some "MR".toList, some ["LOCALIZER".toList],
        some "scout".toList, none, none⟩ false false =
        .ok ⟨true, some 2, ev⟩ ∧ 4 ∉ ev ∧ 5 ∉ ev ∧ 6 ∉ ev ∧ 7 ∉ ev :=
  ⟨by decide, by decide, by decide, by decide,
    classifier_rule2_priority _ false false (by decide) (by decide)
      (by decide) (by decide)⟩

/-! ## `clean_series_tags.py`: the sensitive-value extractor

`get_dangerous_tag_pairs` (clean_series_tags.py:45-98) reads one
reference record per subject folder.  A side is modelled as
`Option DicomRef`: `none` when the reference record cannot be read (no
file found, or `pydicom.dcmread` raised), `some` of the two optional
named fields otherwise.  The whole extraction is wrapped in a bare
`except`, and each diagnostic probe is likewise wrapped, so the function
never raises: its model is a total function. -/

structure DicomRef where
  patientID : Option (List Char)
  seriesDate : Option (List Char)
  deriving DecidableEq, Repr

/-- Whether re-running a `side.Field` lookup fails: the record was never
read (the Python variable is unbound, `NameError`) or the field is
absent (`AttributeError`). -/
def tagLookupFails (side : Option DicomRef) (f : DicomRef → Option (List Char)) : Bool :=
  match side with
  | none => true
  | some d => (f d).isNone

/-- The record the `ctp_ref_image` variable holds during the diagnostic
probes: `pydicom.dcmread(ctp_ref_file)` runs after
`pydicom.dcmread(original_ref_file)`, so when the original read raises,
`ctp_ref_image` is never bound even if the CTP record is readable. -/
def effectiveCtp (orig ctp : Option DicomRef) : Option DicomRef :=
  match orig with
  | none => none
  | some _ => ctp

def labelOrigPID : String := "original_ref_image.PatientID"
def labelCtpPID : String := "ctp_ref_image.PatientID"
def labelOrigSD : String := "original_ref_image.SeriesDate"
def labelCtpSD : String := "ctp_ref_image.SeriesDate"

/-- `get_dangerous_tag_pairs`: the pair list and the diagnostic list. -/
def get_dangerous_tag_pairs (orig ctp : Option DicomRef) :
    List (List Char × List Char) × List String :=
  let sensible_tag_pairs :=
    match orig, ctp with
    | some o, some c =>
      match o.patientID, c.patientID, o.seriesDate, c.seriesDate with
      | some opid, some cpid, some osd, some csd => [(opid, cpid), (osd, csd)]
      | _, _, _, _ => []
    | _, _ => []
  let list_issues :=
    if sensible_tag_pairs = [] then
      (if tagLookupFails orig (·.patientID) then [labelOrigPID] else []) ++
      (if tagLookupFails (effectiveCtp orig ctp) (·.patientID) then [labelCtpPID] else []) ++
      (if tagLookupFails orig (·.seriesDate) then [labelOrigSD] else []) ++
      (if tagLookupFails (effectiveCtp orig ctp) (·.seriesDate) then [labelCtpSD] else [])
    else []
  (sensible_tag_pairs, list_issues)

/-- Whether either reference record cannot be read or a named field is
absent on either side. -/
def anyLookupFailure (orig ctp : Option DicomRef) : Bool :=
  tagLookupFails orig (·.patientID) || tagLookupFails ctp (·.patientID) ||
  tagLookupFails orig (·.seriesDate) || tagLookupFails ctp (·.seriesDate)

/-- C4 counterexample: when the original reference record cannot be read
but the CTP one can and has both fields, the CTP-side lookups are listed
as failed although they would have succeeded — `ctp_ref_image` is bound
only after the original record has been read, so both CTP probes die on
`NameError`. -/
theorem get_dangerous_tag_pairs_counterexample :
    tagLookupFails (some ⟨some ['p'], some ['d']⟩) (·.patientID) = false ∧
    tagLookupFails (some ⟨some ['p'], some ['d']⟩) (·.seriesDate) = false ∧
    (get_dangerous_tag_pairs none (some ⟨some ['p'], some ['d']⟩)).2 =
      [labelOrigPID, labelCtpPID, labelOrigSD, labelCtpSD] := by
  refine ⟨rfl, rfl, ?_⟩
  rfl

/-- C4 (amended): `get_dangerous_tag_pairs` never raises (it is a total
function); whenever either reference record cannot be read or a named
field is absent on either side, it returns an empty pair list together
with a diagnostic list that contains a (side, field) label exactly when
re-running that lookup in the diagnostic block fails — for the original
side, when the original record is unreadable or lacks the field; for the
CTP side, when the original record is unreadable (its read precedes the
CTP read, leaving `ctp_ref_image` unbound), the CTP record is
unreadable, or the CTP record lacks the field. -/
theorem get_dangerous_tag_pairs_failure_diagnostics
    (orig ctp : Option DicomRef) (hfail : anyLookupFailure orig ctp = true) :
    (get_dangerous_tag_pairs orig ctp).1 = [] ∧
    (labelOrigPID ∈ (get_dangerous_tag_pairs orig ctp).2 ↔
      tagLookupFails orig (·.patientID) = true) ∧
    (labelCtpPID ∈ (get_dangerous_tag_pairs orig ctp).2 ↔
      tagLookupFails (effectiveCtp orig ctp) (·.patientID) = true) ∧
    (labelOrigSD ∈ (get_dangerous_tag_pairs orig ctp).2 ↔
      tagLookupFails orig (·.seriesDate) = true) ∧
    (labelCtpSD ∈ (get_dangerous_tag_pairs orig ctp).2 ↔
      tagLookupFails (effectiveCtp orig ctp) (·.seriesDate) = true) := by
  have hpairs : (get_dangerous_tag_pairs orig ctp).1 = [] := by
    rcases orig with _ | o
    · rfl
    rcases ctp with _ | c
    · rfl
    rcases hpid : o.patientID with _ | opid <;>
      rcases hcpid : c.patientID with _ | cpid <;>
      rcases hsd : o.seriesDate with _ | osd <;>
      rcases hcsd : c.seriesDate with _ | csd <;>
      simp_all [get_dangerous_tag_pairs, anyLookupFailure, tagLookupFails]
  refine ⟨hpairs, ?_, ?_, ?_, ?_⟩ <;>
  · rw [show (get_dangerous_tag_pairs orig ctp).2 =
        (if tagLookupFails orig (·.patientID) then [labelOrigPID] else []) ++
        (if tagLookupFails (effectiveCtp orig ctp) (·.patientID) then [labelCtpPID] else []) ++
        (if tagLookupFails orig (·.seriesDate) then [labelOrigSD] else []) ++
        (if tagLookupFails (effectiveCtp orig ctp) (·.seriesDate) then [labelCtpSD] else [])
      from by
        have h1 := hpairs
        simp only [get_dangerous_tag_pairs] at h1 ⊢
        rw [if_pos h1]]
    rcases h1 : tagLookupFails orig (·.patientID) <;>
      rcases h2 : tagLookupFails (effectiveCtp orig ctp) (·.patientID) <;>
      rcases h3 : tagLookupFails orig (·.seriesDate) <;>
      rcases h4 : tagLookupFails (effectiveCtp orig ctp) (·.seriesDate) <;>
      simp [labelOrigPID, labelCtpPID, labelOrigSD, labelCtpSD]

/-- Witness for the amended C4: the original record is readable but
lacks `SeriesDate`; the CTP record is readable with both fields.  Only
the original `SeriesDate` lookup is listed. -/
theorem get_dangerous_tag_pairs_failure_diagnostics_witness :
    anyLookupFailure (some ⟨some ['p'], none⟩) (some ⟨some ['q'], some ['d']⟩) = true ∧
    ((get_dangerous_tag_pairs (some ⟨some ['p'], none⟩)
        (some ⟨some ['q'], some ['d']⟩)).1 = [] ∧
      (labelOrigPID ∈ (get_dangerous_tag_pairs (some ⟨some ['p'], none⟩)
          (some ⟨some ['q'], some ['d']⟩)).2 ↔
        tagLookupFails (some ⟨some ['p'], none⟩) (·.patientID) = true) ∧
      (labelCtpPID ∈ (get_dangerous_tag_pairs (some ⟨some ['p'], none⟩)
          (some ⟨some ['q'], some ['d']⟩)).2 ↔
        tagLookupFails (effectiveCtp (some ⟨some ['p'], none⟩)
          (some ⟨some ['q'], some ['d']⟩)) (·.patientID) = true) ∧
      (labelOrigSD ∈ (get_dangerous_tag_pairs (some ⟨some ['p'], none⟩)
          (some ⟨some ['q'], some ['d']⟩)).2 ↔
        tagLookupFails (some ⟨some ['p'], none⟩) (·.seriesDate) = true) ∧
      (labelCtpSD ∈ (get_dangerous_tag_pairs (some ⟨some ['p'], none⟩)
          (some ⟨some ['q'], some ['d']⟩)).2 ↔
        tagLookupFails (effectiveCtp (some ⟨some ['p'], none⟩)
          (some ⟨some ['q'], some ['d']⟩)) (·.seriesDate) = true)) :=
  ⟨by decide, get_dangerous_tag_pairs_failure_diagnostics
    (some ⟨some ['p'], none⟩) (some ⟨some ['q'], some ['d']⟩) (by decide)⟩

/-! ## `ctp_dat_batcher.py`: the slice geometry sorter

`get_sorted_image_files` (ctp_dat_batcher.py:504-543) reads, per file,
`ImagePositionPatient` (a 3-vector) and — for the first file only —
`ImageOrientationPatient` (two 3-vectors).  Coordinates are modelled
over `ℚ`.  Python's `sorted` is specified as the stable ascending sort;
`List.insertionSort` with the key comparison realizes exactly that
function, since a stable sort by a total preorder is unique. -/

structure Vec3 where
  x : ℚ
  y : ℚ
  z : ℚ
  deriving DecidableEq, Repr

def Vec3.sub (a b : Vec3) : Vec3 :=
  ⟨a.x - b.x, a.y - b.y, a.z - b.z⟩

def Vec3.dot (a b : Vec3) : ℚ :=
  a.x * b.x + a.y * b.y + a.z * b.z

def Vec3.cross (a b : Vec3) : Vec3 :=
  ⟨a.y * b.z - a.z * b.y, a.z * b.x - a.x * b.z, a.x * b.y - a.y * b.x⟩

/-- One DICOM file, reduced to the geometry the sorter reads. -/
structure SliceRec where
  position : Vec3
  orientRow : Vec3
  orientCol : Vec3
  deriving DecidableEq, Repr

/-- The sort key of record `r`: the scalar projection of
`position − reference_position` onto the scan axis (the cross product of
the reference record's two orientation vectors). -/
def sliceKey (ref r : SliceRec) : ℚ :=
  Vec3.dot (Vec3.sub r.position ref.position)
    (Vec3.cross ref.orientRow ref.orientCol)

/-- `get_sorted_image_files`: empty input is returned as is; otherwise
the whole list (first record included) is stably sorted by ascending
scalar projection along the first record's scan axis. -/
def get_sorted_image_files : List SliceRec → List SliceRec
  | [] => []
  | ref :: rest =>
    List.insertionSort (fun a b => sliceKey ref a ≤ sliceKey ref b) (ref :: rest)

theorem filter_orderedInsert {α : Type} (key : α → ℚ) (k : ℚ) (a : α) (l : List α) :
    (List.orderedInsert (fun x y => key x ≤ key y) a l).filter
        (fun x => decide (key x = k)) =
      if key a = k then a :: l.filter (fun x => decide (key x = k))
      else l.filter (fun x => decide (key x = k)) := by
  rw [List.orderedInsert_eq_take_drop, List.filter_append]
  by_cases hk : key a = k
  · rw [if_pos hk]
    have htake : (l.takeWhile fun b => ¬key a ≤ key b).filter
        (fun x => decide (key x = k)) = [] := by
      rw [List.filter_eq_nil_iff]
      intro b hb
      have hlt : ¬key a ≤ key b := by
        have h2 := List.mem_takeWhile_imp hb
        simpa using h2
      simp only [decide_eq_true_eq]
      intro hbk
      exact hlt (le_of_eq (by rw [hbk, hk]))
    rw [htake, List.nil_append]
    have hfa : (a :: l.dropWhile fun b => ¬key a ≤ key b).filter
        (fun x => decide (key x = k)) =
        a :: (l.dropWhile fun b => ¬key a ≤ key b).filter
          (fun x => decide (key x = k)) := by
      rw [List.filter_cons_of_pos (by simpa using hk)]
    rw [hfa]
    congr 1
    conv_rhs => rw [← List.takeWhile_append_dropWhile
      (p := fun b => decide (¬key a ≤ key b)) (l := l)]
    rw [List.filter_append, htake, List.nil_append]
  · rw [if_neg hk, List.filter_cons_of_neg (by simpa using hk)]
    conv_rhs => rw [← List.takeWhile_append_dropWhile
      (p := fun b => decide (¬key a ≤ key b)) (l := l)]
    rw [List.filter_append]

theorem filter_insertionSort {α : Type} (key : α → ℚ) (k : ℚ) (l : List α) :
    (List.insertionSort (fun x y => key x ≤ key y) l).filter
        (fun x => decide (key x = k)) =
      l.filter (fun x => decide (key x = k)) := by
  induction l with
  | nil => rfl
  | cons a l ih =>
    rw [List.insertionSort, filter_orderedInsert key k a, ih]
    by_cases hk : key a = k
    · rw [if_pos hk, List.filter_cons_of_pos (by simpa using hk)]
    · rw [if_neg hk, List.filter_cons_of_neg (by simpa using hk)]

/-- C6: on a non-empty list of records, `get_sorted_image_files` returns
a permutation of its input that is sorted ascending by the scalar
projection onto the first record's scan axis; records with equal
projection keep their input relative order (the filter at any key value
is preserved); and already-sorted input is returned unchanged. -/
theorem get_sorted_image_files_spec (ref : SliceRec) (rest : List SliceRec) :
    (get_sorted_image_files (ref :: rest)).Perm (ref :: rest) ∧
    List.Sorted (fun a b => sliceKey ref a ≤ sliceKey ref b)
      (get_sorted_image_files (ref :: rest)) ∧
    (∀ k : ℚ, (get_sorted_image_files (ref :: rest)).filter
        (fun x => decide (sliceKey ref x = k)) =
      (ref :: rest).filter (fun x => decide (sliceKey ref x = k))) ∧
    (List.Sorted (fun a b => sliceKey ref a ≤ sliceKey ref b) (ref :: rest) →
      get_sorted_image_files (ref :: rest) = ref :: rest) := by
  haveI htot : IsTotal SliceRec (fun a b => sliceKey ref a ≤ sliceKey ref b) :=
    ⟨fun a b => le_total (sliceKey ref a) (sliceKey ref b)⟩
  haveI htrans : IsTrans SliceRec (fun a b => sliceKey ref a ≤ sliceKey ref b) :=
    ⟨fun _ _ _ hab hbc => le_trans hab hbc⟩
  refine ⟨?_, ?_, ?_, ?_⟩
  · exact List.perm_insertionSort _ _
  · exact List.sorted_insertionSort _ _
  · intro k
    exact filter_insertionSort (sliceKey ref) k (ref :: rest)
  · intro hsorted
    exact hsorted.insertionSort_eq

/-- Witness for C6, on three records along the z axis (orientation rows
`(1,0,0)` and `(0,1,0)`, scan axis `(0,0,1)`) in already-sorted order
with projections `0, 5, 15`. -/
theorem get_sorted_image_files_spec_witness :
    (get_sorted_image_files [⟨⟨0, 0, -5⟩, ⟨1, 0, 0⟩, ⟨0, 1, 0⟩⟩,
        ⟨⟨0, 0, 0⟩, ⟨1, 0, 0⟩, ⟨0, 1, 0⟩⟩,
        ⟨⟨0, 0, 10⟩, ⟨1, 0, 0⟩, ⟨0, 1, 0⟩⟩]).Perm
      [⟨⟨0, 0, -5⟩, ⟨1, 0, 0⟩, ⟨0, 1, 0⟩⟩, ⟨⟨0, 0, 0⟩, ⟨1, 0, 0⟩, ⟨0, 1, 0⟩⟩,
        ⟨⟨0, 0, 10⟩, ⟨1, 0, 0⟩, ⟨0, 1, 0⟩⟩] ∧
    List.Sorted (fun a b => sliceKey ⟨⟨0, 0, -5⟩, ⟨1, 0, 0⟩, ⟨0, 1, 0⟩⟩ a ≤
        sliceKey ⟨⟨0, 0, -5⟩, ⟨1, 0, 0⟩, ⟨0, 1, 0⟩⟩ b)
      (get_sorted_image_files [⟨⟨0, 0, -5⟩, ⟨1, 0, 0⟩, ⟨0, 1, 0⟩⟩,
        ⟨⟨0, 0, 0⟩, ⟨1, 0, 0⟩, ⟨0, 1, 0⟩⟩, ⟨⟨0, 0, 10⟩, ⟨1, 0, 0⟩, ⟨0, 1, 0⟩⟩]) ∧
    get_sorted_image_files [⟨⟨0, 0, -5⟩, ⟨1, 0, 0⟩, ⟨0, 1, 0⟩⟩,
        ⟨⟨0, 0, 0⟩, ⟨1, 0, 0⟩, ⟨0, 1, 0⟩⟩, ⟨⟨0, 0, 10⟩, ⟨1, 0, 0⟩, ⟨0, 1, 0⟩⟩] =
      [⟨⟨0, 0, -5⟩, ⟨1, 0, 0⟩, ⟨0, 1, 0⟩⟩, ⟨⟨0, 0, 0⟩, ⟨1, 0, 0⟩, ⟨0, 1, 0⟩⟩,
        ⟨⟨0, 0, 10⟩, ⟨1, 0, 0⟩, ⟨0, 1, 0⟩⟩] :=
  ⟨(get_sorted_image_files_spec _ _).1,
    (get_sorted_image_files_spec _ _).2.1,
    (get_sorted_image_files_spec _ _).2.2.2 (by
      norm_num [List.sorted_cons, sliceKey, Vec3.dot, Vec3.sub, Vec3.cross])⟩

/-- The scenario of §8 of the specification: projected distances
`{10, −5, 0}` come out in the order `{−5, 0, 10}`. -/
theorem get_sorted_image_files_example :
    get_sorted_image_files [⟨⟨0, 0, 10⟩, ⟨1, 0, 0⟩, ⟨0, 1, 0⟩⟩,
        ⟨⟨0, 0, -5⟩, ⟨1, 0, 0⟩, ⟨0, 1, 0⟩⟩,
        ⟨⟨0, 0, 0⟩, ⟨1, 0, 0⟩, ⟨0, 1, 0⟩⟩] =
      [⟨⟨0, 0, -5⟩, ⟨1, 0, 0⟩, ⟨0, 1, 0⟩⟩, ⟨⟨0, 0, 0⟩, ⟨1, 0, 0⟩, ⟨0, 1, 0⟩⟩,
        ⟨⟨0, 0, 10⟩, ⟨1, 0, 0⟩, ⟨0, 1, 0⟩⟩] := by
  norm_num [get_sorted_image_files, List.insertionSort, List.orderedInsert,
    sliceKey, Vec3.dot, Vec3.sub, Vec3.cross]

/-! ## `ctp_dat_batcher.py`: the DAT-script config mutator

`update_dat_script_file` (ctp_dat_batcher.py:185-305) copies the
template to `temp_dir/anonymizer_<random 8 digits>.script`, reads the
copy's lines, rewrites or inserts lines, and writes the copy back.  The
on-disk state is modelled as an association list from paths to line
lists; `shutil.copyfile` raising `SameFileError` before any write, and
`list.insert(None, ...)` raising `TypeError` when the template has no
`</script>` line, are both modelled.  The random sources — the script
name suffix, `random.randint(-30, 30)`, the two `uuid.uuid4().int`
draws and the `generate_uid` suffix — are oracle inputs. -/

/-- The random draws one call of `update_dat_script_file` consumes. -/
structure Draws where
  scriptSeed : Nat
  dateSeed : Nat
  pidSeed : Nat
  pnameSeed : Nat
  uidSuffix : List Char
  deriving DecidableEq, Repr

/-- `random.randint(lo, hi)`: a uniform draw from the inclusive range,
realized from a uniform natural seed. -/
def pyRandint (lo hi : Int) (seed : Nat) : Int :=
  lo + (seed % (hi - lo + 1).toNat : Nat)

/-- `next((i for i, line in enumerate(lines) if needle in line), None)`. -/
def findIdxFrom (needle : List Char) (i : Nat) : List (List Char) → Option Nat
  | [] => none
  | l :: ls => if containsSub l needle then some i else findIdxFrom needle (i + 1) ls

def findIdxSub (needle : List Char) (lines : List (List Char)) : Option Nat :=
  findIdxFrom needle 0 lines

/-- `next((line for line in lines if needle in line), None)`. -/
def findLineSub (needle : List Char) : List (List Char) → Option (List Char)
  | [] => none
  | l :: ls => if containsSub l needle then some l else findLineSub needle ls

/-- Python's `list.insert(i, x)`: insert before position `i`, appending
when `i` is past the end. -/
def pyInsert {α : Type} (i : Nat) (x : α) : List α → List α
  | [] => [x]
  | h :: t =>
    match i with
    | 0 => x :: h :: t
    | n + 1 => h :: pyInsert n x t

/-- One overwrite-or-insert step of the mutator: overwrite the line at
`idx` when the distinguishing substring was found, else insert before
`end_script_index`; `list.insert(None, ...)` raises `TypeError`. -/
def lineUpdateStep (lines : List (List Char)) (end_script_index : Option Nat)
    (idx : Option Nat) (newLine : List Char) :
    Except PyErr (List (List Char)) :=
  match idx with
  | some i => .ok (lines.set i newLine)
  | none =>
    match end_script_index with
    | some e => .ok (pyInsert e newLine lines)
    | none => .error .typeError

/-- The UIDROOT discovery step: extract the root prefix from an existing
`t="UIDROOT"` line (`line.split('>')[1].split('<')[0]`, with the
`IndexError` of a missing `>`), ensuring it ends with a period; when no
such line exists, insert the documented default before the end tag. -/
def uidrootStep (lines : List (List Char)) (end_script_index : Option Nat) :
    Except PyErr (List (List Char) × List Char) :=
  match findLineSub "t=\"UIDROOT\"".toList lines with
  | some uline =>
    match (pySplit '>' uline)[1]? with
    | some p1 =>
      let v := (pySplit '<' p1).headD []
      .ok (lines, if v.getLast? = some '.' then v else v ++ ['.'])
    | none => .error .indexError
  | none =>
    match end_script_index with
    | some e =>
      .ok (pyInsert e "<p t=\"UIDROOT\">1.2.826.0.1.3680043.8.498</p>\n".toList lines,
        "1.2.826.0.1.3680043.8.498.".toList)
    | none => .error .typeError

/-- The mutation applied to the copied script's lines after the DATEINC
marker check has passed: the body of `update_dat_script_file` from the
`lines[1] = ...` rewrite to the final `writelines`.  `end_script_index`
is the index computed once at the start (the source computes it twice,
identically) and never recomputed, so every insertion lands before the
line that held `</script>` at read time. -/
def applyDatMutations (lines : List (List Char)) (end_script_index : Option Nat)
    (new_patient_id : Option (List Char)) (dateinc : Option Int) (d : Draws) :
    Except PyErr (List Char × List Char × List Char × Int × List (List Char)) := do
  let dateincV : Int :=
    match dateinc with
    | some v => v
    | none => pyRandint (-30) 30 d.dateSeed
  let lines := lines.set 1
    (" <p t=\"DATEINC\">".toList ++ intRepr dateincV ++ "</p>\n".toList)
  -- PatientID: overwrite the existing line, else insert before </script>
  let new_patient_idV : List Char :=
    match new_patient_id with
    | some v => v
    | none => (natDigits d.pidSeed).take 11
  let pidLine := "<e en=\"T\" t=\"00100020\" n=\"PatientID\">".toList ++
    new_patient_idV ++ "</e>\n".toList
  let lines ← lineUpdateStep lines end_script_index
    (findIdxSub "n=\"PatientID\"".toList lines) pidLine
  -- PatientName: always freshly randomized
  let new_patient_name := (natDigits d.pnameSeed).take 7
  let pnameLine := "<e en=\"T\" t=\"00100010\" n=\"PatientName\">".toList ++
    new_patient_name ++ "</e>\n".toList
  let lines ← lineUpdateStep lines end_script_index
    (findIdxSub "n=\"PatientName\"".toList lines) pnameLine
  -- UIDROOT: discover the prefix, else insert the documented default
  let (lines, uidroot_value) ← uidrootStep lines end_script_index
  -- SeriesInstanceUID: prefix discovered above plus a fresh suffix
  let new_series_uid := uidroot_value ++ d.uidSuffix
  let siuidLine := "<e en=\"T\" t=\"0020000E\" n=\"SeriesInstanceUID\">".toList ++
    new_series_uid ++ "</e>\n".toList
  let lines ← lineUpdateStep lines end_script_index
    (findIdxSub "n=\"SeriesInstanceUID\"".toList lines) siuidLine
  pure (new_patient_idV, new_patient_name, new_series_uid, dateincV, lines)

/-- The document-level transformation of `update_dat_script_file`: what
happens to the lines of the copied script between `readlines` and
`writelines`. -/
def update_dat_script_lines (lines : List (List Char))
    (new_patient_id : Option (List Char)) (dateinc : Option Int) (d : Draws) :
    Except PyErr (List Char × List Char × List Char × Int × List (List Char)) := do
  let end_script_index := findIdxSub "</script>".toList lines
  -- `lines[1]` raises IndexError on a template shorter than two lines
  let line1 ←
    match lines[1]? with
    | some l => pure l
    | none => throw .indexError
  -- the malformed-template check: ValueError when the fixed-position
  -- line lacks the DATEINC marker
  if containsSub line1 "DATEINC".toList then
    applyDatMutations lines end_script_index new_patient_id dateinc d
  else
    throw .valueError

/-- On-disk state: an association list from paths to line lists; a write
shadows previous entries. -/
def FS : Type := List (List Char × List (List Char))

def fsRead (fs : FS) (p : List Char) : Option (List (List Char)) :=
  match fs with
  | [] => none
  | (q, c) :: rest => if p = q then some c else fsRead rest p

def fsWrite (fs : FS) (p : List Char) (c : List (List Char)) : FS :=
  (p, c) :: fs

/-- `update_dat_script_file`, filesystem level: copy the template to a
fresh path in `temp_dir`, mutate the copy's lines, write the copy back;
return the generated values and the copy's path.  `shutil.copyfile`
raises `SameFileError` (before writing anything) when source and
destination are the same path. -/
def update_dat_script_file (fs : FS) (original_dat_script temp_dir : List Char)
    (new_patient_id : Option (List Char)) (dateinc : Option Int) (d : Draws) :
    FS × Except PyErr (List Char × List Char × List Char × Int × List Char) :=
  let new_dat_script :=
    temp_dir ++ "/anonymizer_".toList ++ natDigits d.scriptSeed ++ ".script".toList
  if original_dat_script = new_dat_script then
    (fs, .error .sameFileError)
  else
    match fsRead fs original_dat_script with
    | none => (fs, .error .fileNotFound)
    | some content =>
      let fs1 := fsWrite fs new_dat_script content
      match update_dat_script_lines content new_patient_id dateinc d with
      | .error e => (fs1, .error e)
      | .ok (pid, pname, uid, di, newLines) =>
        (fsWrite fs1 new_dat_script newLines,
          .ok (pid, pname, uid, di, new_dat_script))

/-- A sequence of independent `update_dat_script_file` calls against the
same template path, each with its own temp dir, arguments and draws. -/
def runCalls (fs : FS) (orig : List Char) :
    List (List Char × Option (List Char) × Option Int × Draws) → FS
  | [] => fs
  | (td, pid, di, d) :: rest =>
    runCalls (update_dat_script_file fs orig td pid di d).1 orig rest

/-- The mutation body never raises the malformed-template `ValueError`:
its only raises are the `TypeError` of `list.insert(None, ...)` (no
`</script>` line) and the `IndexError` of the `UIDROOT` value split. -/
theorem lineUpdateStep_ne_valueError (lines : List (List Char))
    (endIdx idx : Option Nat) (newLine : List Char) :
    lineUpdateStep lines endIdx idx newLine ≠ .error .valueError := by
  rw [lineUpdateStep.eq_def]
  repeat' split
  all_goals simp

theorem uidrootStep_ne_valueError (lines : List (List Char))
    (endIdx : Option Nat) :
    uidrootStep lines endIdx ≠ .error .valueError := by
  rw [uidrootStep.eq_def]
  repeat' split
  all_goals simp

theorem applyDatMutations_ne_valueError (lines : List (List Char))
    (endIdx : Option Nat) (pid? : Option (List Char)) (di? : Option Int)
    (d : Draws) :
    applyDatMutations lines endIdx pid? di? d ≠ .error .valueError := by
  intro h
  rw [applyDatMutations.eq_def] at h
  simp only [bind, Except.bind, pure, Except.pure] at h
  split at h
  · rename_i e heq
    cases h
    exact lineUpdateStep_ne_valueError _ _ _ _ heq
  · rename_i a heq
    split at h
    · rename_i e2 heq2
      cases h
      exact lineUpdateStep_ne_valueError _ _ _ _ heq2
    · rename_i a2 heq2
      split at h
      · rename_i e3 heq3
        cases h
        exact uidrootStep_ne_valueError _ _ heq3
      · rename_i a3 heq3
        split at h
        · rename_i e4 heq4
          cases h
          exact lineUpdateStep_ne_valueError _ _ _ _ heq4
        · rename_i a4 heq4
          simp at h

/-- C9: a template with at least two lines whose line at index 1 does
not contain the `DATEINC` marker makes `update_dat_script_file` raise
the malformed-template `ValueError` and produce no output document;
a template whose line at index 1 does contain the marker never raises
that error. -/
theorem update_dat_script_dateinc_marker (lines : List (List Char))
    (pid? : Option (List Char)) (di? : Option Int) (d : Draws)
    (l1 : List Char) (h1 : lines[1]? = some l1) :
    (containsSub l1 "DATEINC".toList = false →
      update_dat_script_lines lines pid? di? d = .error .valueError) ∧
    (containsSub l1 "DATEINC".toList = true →
      update_dat_script_lines lines pid? di? d ≠ .error .valueError) := by
  constructor
  · intro hno
    rw [update_dat_script_lines]
    simp only [h1, bind, Except.bind, pure, Except.pure, hno,
      Bool.false_eq_true, if_false]
    rfl
  · intro hyes
    rw [update_dat_script_lines]
    simp only [h1, bind, Except.bind, pure, Except.pure, hyes, if_true]
    exact applyDatMutations_ne_valueError _ _ _ _ _

/-- Witness for C9: the template whose second line is `<x>\n` raises the
malformed-template error; the well-formed scenario template does not. -/
theorem update_dat_script_dateinc_marker_witness :
    update_dat_script_lines ["<script>\n".toList, "<x>\n".toList,
        "</script>\n".toList] none none ⟨5, 35, 3, 4, ['1']⟩ =
      .error .valueError ∧
    update_dat_script_lines ["<script>\n".toList,
        " <p t=\"DATEINC\">-26</p>\n".toList, "</script>\n".toList] none none
        ⟨5, 35, 3, 4, ['1']⟩ ≠
      .error .valueError :=
  ⟨(update_dat_script_dateinc_marker _ none none ⟨5, 35, 3, 4, ['1']⟩
      "<x>\n".toList rfl).1 (by decide),
    (update_dat_script_dateinc_marker _ none none ⟨5, 35, 3, 4, ['1']⟩
      " <p t=\"DATEINC\">-26</p>\n".toList rfl).2 (by decide)⟩

theorem containsSub_eq_false_of_marker {hay needle : List Char} (c : Char)
    (hc : c ∈ needle) (hch : c ∉ hay) : containsSub hay needle = false := by
  rw [Bool.eq_false_iff]
  intro h
  exact hch ((containsSub_true_iff.mp h).subset hc)

/-- A needle containing a marker character that a
`prefix ++ payload ++ suffix` line lacks cannot occur in that line. -/
theorem containsSub_concat_marker_false {pre mid post needle : List Char}
    (c : Char) (hc : c ∈ needle) (hpre : c ∉ pre) (hmid : c ∉ mid)
    (hpost : c ∉ post) : containsSub (pre ++ mid ++ post) needle = false := by
  apply containsSub_eq_false_of_marker c hc
  intro hm
  rcases List.mem_append.1 hm with h | h
  · rcases List.mem_append.1 h with h2 | h2
    · exact hpre h2
    · exact hmid h2
  · exact hpost h

/-- The decimal text of an `int` consists of a minus sign and digits. -/
theorem not_mem_intRepr {c : Char} (v : Int) (hminus : c ≠ '-')
    (hdig : c.isDigit = false) : c ∉ intRepr v := by
  intro hm
  rw [intRepr] at hm
  split at hm
  · rcases List.mem_cons.1 hm with h | h
    · exact hminus h
    · rw [natDigits_all_digit _ c h] at hdig
      exact Bool.true_eq_false.mp hdig
  · rw [natDigits_all_digit _ c hm] at hdig
    exact Bool.true_eq_false.mp hdig

/-- A truncated `uuid4().int` decimal string consists of digits. -/
theorem not_mem_digits_take {c : Char} (n k : Nat) (hdig : c.isDigit = false) :
    c ∉ (natDigits n).take k := by
  intro hm
  have h := natDigits_all_digit n c (List.take_subset k _ hm)
  rw [h] at hdig
  exact Bool.true_eq_false.mp hdig

/-- Full evaluation of `update_dat_script_file`'s document
transformation on the scenario template
`<script>\n <p t="DATEINC">-26</p>\n</script>\n` with no caller-supplied
PatientID and no caller-supplied offset, for arbitrary random draws. -/
theorem update_dat_script_lines_template_eval (d : Draws) :
    update_dat_script_lines
      ["<script>\n".toList, " <p t=\"DATEINC\">-26</p>\n".toList,
        "</script>\n".toList] none none d =
    .ok ((natDigits d.pidSeed).take 11, (natDigits d.pnameSeed).take 7,
      "1.2.826.0.1.3680043.8.498.".toList ++ d.uidSuffix,
      pyRandint (-30) 30 d.dateSeed,
      ["<script>\n".toList,
       " <p t=\"DATEINC\">".toList ++ intRepr (pyRandint (-30) 30 d.dateSeed) ++
         "</p>\n".toList,
       "<e en=\"T\" t=\"0020000E\" n=\"SeriesInstanceUID\">".toList ++
         ("1.2.826.0.1.3680043.8.498.".toList ++ d.uidSuffix) ++ "</e>\n".toList,
       "<p t=\"UIDROOT\">1.2.826.0.1.3680043.8.498</p>\n".toList,
       "<e en=\"T\" t=\"00100010\" n=\"PatientName\">".toList ++
         (natDigits d.pnameSeed).take 7 ++ "</e>\n".toList,
       "<e en=\"T\" t=\"00100020\" n=\"PatientID\">".toList ++
         (natDigits d.pidSeed).take 11 ++ "</e>\n".toList,
       "</script>\n".toList]) := by
  have hd_pid : containsSub (" <p t=\"DATEINC\">".toList ++
      intRepr (pyRandint (-30) 30 d.dateSeed) ++ "</p>\n".toList)
      "n=\"PatientID\"".toList = false :=
    containsSub_concat_marker_false 'a' (by decide) (by decide)
      (not_mem_intRepr _ (by decide) (by decide)) (by decide)
  have hd_pn : containsSub (" <p t=\"DATEINC\">".toList ++
      intRepr (pyRandint (-30) 30 d.dateSeed) ++ "</p>\n".toList)
      "n=\"PatientName\"".toList = false :=
    containsSub_concat_marker_false 'a' (by decide) (by decide)
      (not_mem_intRepr _ (by decide) (by decide)) (by decide)
  have hd_ur : containsSub (" <p t=\"DATEINC\">".toList ++
      intRepr (pyRandint (-30) 30 d.dateSeed) ++ "</p>\n".toList)
      "t=\"UIDROOT\"".toList = false :=
    containsSub_concat_marker_false 'R' (by decide) (by decide)
      (not_mem_intRepr _ (by decide) (by decide)) (by decide)
  have hd_si : containsSub (" <p t=\"DATEINC\">".toList ++
      intRepr (pyRandint (-30) 30 d.dateSeed) ++ "</p>\n".toList)
      "n=\"SeriesInstanceUID\"".toList = false :=
    containsSub_concat_marker_false 'S' (by decide) (by decide)
      (not_mem_intRepr _ (by decide) (by decide)) (by decide)
  have hpid_pn : containsSub ("<e en=\"T\" t=\"00100020\" n=\"PatientID\">".toList ++
      (natDigits d.pidSeed).take 11 ++ "</e>\n".toList)
      "n=\"PatientName\"".toList = false :=
    containsSub_concat_marker_false 'N' (by decide) (by decide)
      (not_mem_digits_take _ _ (by decide)) (by decide)
  have hpid_ur : containsSub ("<e en=\"T\" t=\"00100020\" n=\"PatientID\">".toList ++
      (natDigits d.pidSeed).take 11 ++ "</e>\n".toList)
      "t=\"UIDROOT\"".toList = false :=
    containsSub_concat_marker_false 'R' (by decide) (by decide)
      (not_mem_digits_take _ _ (by decide)) (by decide)
  have hpid_si : containsSub ("<e en=\"T\" t=\"00100020\" n=\"PatientID\">".toList ++
      (natDigits d.pidSeed).take 11 ++ "</e>\n".toList)
      "n=\"SeriesInstanceUID\"".toList = false :=
    containsSub_concat_marker_false 'S' (by decide) (by decide)
      (not_mem_digits_take _ _ (by decide)) (by decide)
  have hpn_ur : containsSub ("<e en=\"T\" t=\"00100010\" n=\"PatientName\">".toList ++
      (natDigits d.pnameSeed).take 7 ++ "</e>\n".toList)
      "t=\"UIDROOT\"".toList = false :=
    containsSub_concat_marker_false 'R' (by decide) (by decide)
      (not_mem_digits_take _ _ (by decide)) (by decide)
  have hpn_si : containsSub ("<e en=\"T\" t=\"00100010\" n=\"PatientName\">".toList ++
      (natDigits d.pnameSeed).take 7 ++ "</e>\n".toList)
      "n=\"SeriesInstanceUID\"".toList = false :=
    containsSub_concat_marker_false 'S' (by decide) (by decide)
      (not_mem_digits_take _ _ (by decide)) (by decide)
  rw [update_dat_script_lines]
  rw [show findIdxSub "</script>".toList ["<script>\n".toList,
    " <p t=\"DATEINC\">-26</p>\n".toList, "</script>\n".toList] = some 2 from by decide]
  simp only [show (["<script>\n".toList, " <p t=\"DATEINC\">-26</p>\n".toList,
    "</script>\n".toList])[1]? = some (" <p t=\"DATEINC\">-26</p>\n".toList) from rfl,
    bind, Except.bind, pure, Except.pure]
  rw [if_pos (by decide)]
  rw [applyDatMutations.eq_def]
  simp only [List.set, findIdxSub, findIdxFrom, lineUpdateStep.eq_def,
    uidrootStep.eq_def, findLineSub, pyInsert, bind, Except.bind, pure, Except.pure,
    hd_pid, hd_pn, hd_ur, hd_si, hpid_pn, hpid_ur, hpid_si, hpn_ur, hpn_si,
    show containsSub "<script>\n".toList "n=\"PatientID\"".toList = false from by decide,
    show containsSub "</script>\n".toList "n=\"PatientID\"".toList = false from by decide,
    show containsSub "<script>\n".toList "n=\"PatientName\"".toList = false from by decide,
    show containsSub "</script>\n".toList "n=\"PatientName\"".toList = false from by decide,
    show containsSub "<script>\n".toList "t=\"UIDROOT\"".toList = false from by decide,
    show containsSub "</script>\n".toList "t=\"UIDROOT\"".toList = false from by decide,
    show containsSub "<script>\n".toList "n=\"SeriesInstanceUID\"".toList = false from by decide,
    show containsSub "</script>\n".toList "n=\"SeriesInstanceUID\"".toList = false from by decide,
    show containsSub "<p t=\"UIDROOT\">1.2.826.0.1.3680043.8.498</p>\n".toList
      "n=\"SeriesInstanceUID\"".toList = false from by decide,
    Bool.false_eq_true, if_false]

/-- The drawn temporal offset lies in the inclusive range `[-30, 30]`. -/
theorem pyRandint_mem_range (seed : Nat) :
    -30 ≤ pyRandint (-30) 30 seed ∧ pyRandint (-30) 30 seed ≤ 30 := by
  rw [pyRandint, show ((30 - (-30) + 1 : Int)).toNat = 61 from by decide]
  have h := Nat.mod_lt seed (show 0 < 61 by omega)
  omega

/-- C7: on the template `<script>`, ` <p t="DATEINC">-26</p>`,
`</script>` with no caller-supplied PatientID and no caller-supplied
offset, the mutator produces a document whose line at index 1 is the
DATEINC line rewritten in place with a freshly drawn integer in
`[-30, 30]`, and in which a new randomized PatientID line and a new
randomized PatientName line are both inserted before the `</script>`
line. -/
theorem update_dat_script_scenario (d : Draws) :
    ∃ (pid pname uid : List Char) (v : Int) (out : List (List Char)),
      update_dat_script_lines
        ["<script>\n".toList, " <p t=\"DATEINC\">-26</p>\n".toList,
          "</script>\n".toList] none none d = .ok (pid, pname, uid, v, out) ∧
      -30 ≤ v ∧ v ≤ 30 ∧
      out[1]? = some (" <p t=\"DATEINC\">".toList ++ intRepr v ++ "</p>\n".toList) ∧
      ∃ i j k : Nat, i < k ∧ j < k ∧
        out[i]? = some ("<e en=\"T\" t=\"00100020\" n=\"PatientID\">".toList ++
          pid ++ "</e>\n".toList) ∧
        out[j]? = some ("<e en=\"T\" t=\"00100010\" n=\"PatientName\">".toList ++
          pname ++ "</e>\n".toList) ∧
        out[k]? = some "</script>\n".toList := by
  refine ⟨(natDigits d.pidSeed).take 11, (natDigits d.pnameSeed).take 7,
    "1.2.826.0.1.3680043.8.498.".toList ++ d.uidSuffix,
    pyRandint (-30) 30 d.dateSeed, _,
    update_dat_script_lines_template_eval d,
    (pyRandint_mem_range d.dateSeed).1, (pyRandint_mem_range d.dateSeed).2,
    rfl, 5, 4, 6, by omega, by omega, rfl, rfl, rfl⟩

theorem fsRead_fsWrite_ne {fs : FS} {p q : List Char} {c : List (List Char)}
    (h : p ≠ q) : fsRead (fsWrite fs q c) p = fsRead fs p := by
  simp [fsRead, fsWrite, if_neg h]

/-- A single call writes only at the fresh copy's path. -/
theorem update_dat_script_file_frame (fs : FS) (orig td : List Char)
    (pid? : Option (List Char)) (di? : Option Int) (d : Draws) (p : List Char)
    (hp : p ≠ td ++ "/anonymizer_".toList ++ natDigits d.scriptSeed ++
      ".script".toList) :
    fsRead (update_dat_script_file fs orig td pid? di? d).1 p = fsRead fs p := by
  rw [update_dat_script_file]
  split
  · rfl
  · split
    · rfl
    · split
      · exact fsRead_fsWrite_ne hp
      · rw [fsRead_fsWrite_ne hp, fsRead_fsWrite_ne hp]

/-- A single call leaves the bytes at the template path untouched, even
when the fresh path collides with it (`shutil.copyfile` raises
`SameFileError` before writing). -/
theorem update_dat_script_file_frame_orig (fs : FS) (orig td : List Char)
    (pid? : Option (List Char)) (di? : Option Int) (d : Draws) :
    fsRead (update_dat_script_file fs orig td pid? di? d).1 orig =
      fsRead fs orig := by
  by_cases hp : orig = td ++ "/anonymizer_".toList ++ natDigits d.scriptSeed ++
      ".script".toList
  · rw [update_dat_script_file, if_pos hp]
  · exact update_dat_script_file_frame fs orig td pid? di? d orig hp

theorem runCalls_frame (orig : List Char) :
    ∀ (calls : List (List Char × Option (List Char) × Option Int × Draws))
      (fs : FS), fsRead (runCalls fs orig calls) orig = fsRead fs orig
  | [], _ => rfl
  | (td, pid, di, d) :: rest, fs => by
    rw [runCalls, runCalls_frame orig rest _,
      update_dat_script_file_frame_orig]

/-- C8: `update_dat_script_file` never alters the content of the
template path: the bytes there are the same before and after any number
of independent calls; and a successful call mutates only the freshly
created copy, whose path — distinct from the template path — is returned
to the caller. -/
theorem update_dat_script_copy_on_write (fs : FS) (orig : List Char)
    (calls : List (List Char × Option (List Char) × Option Int × Draws)) :
    fsRead (runCalls fs orig calls) orig = fsRead fs orig ∧
    ∀ (td : List Char) (pid? : Option (List Char)) (di? : Option Int)
      (d : Draws) (pid pname uid : List Char) (di : Int) (np : List Char),
      (update_dat_script_file fs orig td pid? di? d).2 =
        .ok (pid, pname, uid, di, np) →
      np ≠ orig ∧ ∀ p : List Char, p ≠ np →
        fsRead (update_dat_script_file fs orig td pid? di? d).1 p =
          fsRead fs p := by
  refine ⟨runCalls_frame orig calls fs, ?_⟩
  intro td pid? di? d pid pname uid di np hok
  rw [update_dat_script_file] at hok
  split at hok
  · exact absurd hok (by simp)
  · rename_i hne
    split at hok
    · exact absurd hok (by simp)
    · split at hok
      · exact absurd hok (by simp)
      · simp only [Except.ok.injEq, Prod.mk.injEq] at hok
        obtain ⟨-, -, -, -, hnp⟩ := hok
        subst hnp
        refine ⟨fun h => hne (h ▸ rfl), fun p hp => ?_⟩
        exact update_dat_script_file_frame fs orig td pid? di? d p hp

/-- Witness for C8: a concrete template file, one recorded call and one
successful call; the template's content is unchanged and the mutation is
confined to the returned path. -/
theorem update_dat_script_copy_on_write_witness :
    fsRead (runCalls [(['t'], ["<script>\n".toList,
        " <p t=\"DATEINC\">-26</p>\n".toList, "</script>\n".toList])] ['t']
        [(['d'], none, none, ⟨5, 35, 3, 4, ['1']⟩)]) ['t'] =
      fsRead [(['t'], ["<script>\n".toList, " <p t=\"DATEINC\">-26</p>\n".toList,
        "</script>\n".toList])] ['t'] ∧
    (['d'] ++ "/anonymizer_".toList ++ natDigits 5 ++ ".script".toList) ≠ ['t'] ∧
    ∀ p : List Char,
      p ≠ ['d'] ++ "/anonymizer_".toList ++ natDigits 5 ++ ".script".toList →
      fsRead (update_dat_script_file [(['t'], ["<script>\n".toList,
          " <p t=\"DATEINC\">-26</p>\n".toList, "</script>\n".toList])] ['t']
          ['d'] none none ⟨5, 35, 3, 4, ['1']⟩).1 p =
        fsRead [(['t'], ["<script>\n".toList, " <p t=\"DATEINC\">-26</p>\n".toList,
          "</script>\n".toList])] p := by
  have hne2 : (['t'] : List Char) ≠ ['d'] ++ "/anonymizer_".toList ++
      natDigits (Draws.mk 5 35 3 4 ['1']).scriptSeed ++ ".script".toList := by
    simp only [show (Draws.mk 5 35 3 4 ['1']).scriptSeed = 5 from rfl,
      natDigits_small (show (5 : Nat) < 10 by omega)]
    decide
  have hread : fsRead [(['t'], ["<script>\n".toList,
      " <p t=\"DATEINC\">-26</p>\n".toList, "</script>\n".toList])] ['t'] =
      some ["<script>\n".toList, " <p t=\"DATEINC\">-26</p>\n".toList,
        "</script>\n".toList] := rfl
  have hok : (update_dat_script_file [(['t'], ["<script>\n".toList,
      " <p t=\"DATEINC\">-26</p>\n".toList, "</script>\n".toList])] ['t']
      ['d'] none none ⟨5, 35, 3, 4, ['1']⟩).2 =
      .ok ((natDigits 3).take 11, (natDigits 4).take 7,
        "1.2.826.0.1.3680043.8.498.".toList ++ ['1'], pyRandint (-30) 30 35,
        ['d'] ++ "/anonymizer_".toList ++ natDigits 5 ++ ".script".toList) := by
    rw [update_dat_script_file, if_neg hne2, hread]
    simp only [update_dat_script_lines_template_eval ⟨5, 35, 3, 4, ['1']⟩]
  have h := update_dat_script_copy_on_write
    [(['t'], ["<script>\n".toList, " <p t=\"DATEINC\">-26</p>\n".toList,
      "</script>\n".toList])] ['t'] [(['d'], none, none, ⟨5, 35, 3, 4, ['1']⟩)]
  obtain ⟨hnp, hframe⟩ := h.2 ['d'] none none ⟨5, 35, 3, 4, ['1']⟩ _ _ _ _ _ hok
  exact ⟨h.1, hnp, hframe⟩

end TmlCtp
